import Mathlib

/-!
Verification development for the DeclaraFacil request-lifecycle and batch
document-generation service (`src/backend/src/app.module.ts`, class
`RequestService`).  The TypeScript service is shallowly embedded: entities
become structures, the TypeORM repository becomes an explicit `DB` state that
operations thread, thrown NestJS exceptions become `Except ServiceError`,
and the external PDF renderer / blob publisher pair becomes an oracle
function passed to `generatePdf`.
-/

/-- Request lifecycle states.  Modelled from the spec: `request.entity.ts` is
not among the sources; §3 of the spec fixes the enum PENDING, PROCESSING,
COMPLETED, REJECTED, and the service code references exactly these four
constructors of `RequestStatus`. -/
inductive RequestStatus
  | pending
  | processing
  | completed
  | rejected
deriving DecidableEq, Repr

/-- User profile, as read by the service (`request.user.*` accesses and the
`is_admin` flag).  Field list taken from the service's `userData` assembly and
permission checks; the entity file itself is not among the sources. -/
structure UserProfile where
  id : String
  name : String
  street : String
  house_number : String
  complement : Option String
  neighborhood : String
  city : String
  state : String
  postal_code : String
  rg : String
  cpf : String
  issuing_agency : String
  is_admin : Bool
deriving DecidableEq, Repr

/-- Declaration template: id, human-readable type label, title, body and
footer text with placeholder tokens (fields read by the service). -/
structure Declaration where
  id : String
  type : String
  title : String
  content : String
  footer : String
deriving DecidableEq, Repr

/-- Request entity.  Relations (`user`, `declaration`, `attendant`) are
embedded as the loaded objects, matching how the service dereferences them
(`request.user.name`, `request.declaration.id`, `request.attendant?.name`);
they are `Option`s because TypeORM relations may be null and the service
creates a request even when the caller lookup returned nothing. -/
structure RequestEntity where
  id : String
  user : Option UserProfile
  declaration : Option Declaration
  attendant : Option UserProfile
  status : RequestStatus
  createdAt : Nat
  generation_date : Option Nat
  url : Option String
deriving DecidableEq, Repr

/-- Persistent state visible to the service: the user store, the declaration
store and the request repository. -/
structure DB where
  users : List UserProfile
  declarations : List Declaration
  requests : List RequestEntity
deriving DecidableEq, Repr

/-- Shape of the items returned by `getRequests`, `updateStatus` and
`generatePdf` (interface `FormatRequestType`). -/
structure FormatRequest where
  id : String
  name : String
  requestDate : Nat
  status : RequestStatus
  url : Option String := none
  generationDate : Option Nat := none
deriving DecidableEq, Repr

/-- Modelled from the spec: the DTO files are not among the sources; §4.1
gives `updateStatus(callerId, requestIds, targetStatus)` with an arbitrary
target status, which is what the service destructures from the DTO. -/
structure UpdateStatusDto where
  status : RequestStatus
  requestIds : List String
deriving DecidableEq, Repr

/-- Modelled from the spec: the DTO files are not among the sources; §4.4
gives `generateDocuments(callerId, requestIds)`. -/
structure GeneratePdfDto where
  requestIds : List String
deriving DecidableEq, Repr

/-- Errors the service can raise: the NestJS exception classes it constructs
(`ForbiddenException`, `ConflictException`), the `NotFoundException` class
available from the same library (never constructed by this service, but
needed to state claims about it), and `nullAccess` for a TypeError raised by
dereferencing a null/undefined value. -/
inductive ServiceError
  | forbidden : String → ServiceError
  | conflict : String → ServiceError
  | notFound : String → ServiceError
  | nullAccess
deriving DecidableEq, Repr

/-- Lookup in the user store: `usersService.findById`. -/
def usersFindById (userId : String) (db : DB) : Option UserProfile :=
  db.users.find? (fun u => u.id == userId)

/-- Lookup in the declaration store: `declarationService.findById`. -/
def declFindById (declarationId : String) (db : DB) : Option Declaration :=
  db.declarations.find? (fun d => d.id == declarationId)

/-- The service's `getRequestById`: `requestRepository.findOne({where:{id}})`. -/
def getRequestById (requestId : String) (db : DB) : Option RequestEntity :=
  db.requests.find? (fun r => r.id == requestId)

/-- Truthiness of `user && !user.is_admin`: the guard condition of the
admin-only operations.  A missing user (null) makes the conjunction falsy. -/
def adminCheckFails (user : Option UserProfile) : Bool :=
  match user with
  | some u => !u.is_admin
  | none => false

/-- Truthiness of `user && user.is_admin`: the guard condition of
`createRequest` (admins may not create requests). -/
def nonAdminCheckFails (user : Option UserProfile) : Bool :=
  match user with
  | some u => u.is_admin
  | none => false

/-- Membership in the service's `completedStatus` array
(`[RequestStatus.COMPLETED, RequestStatus.REJECTED].includes(s)`). -/
def isTerminal (s : RequestStatus) : Bool :=
  s == RequestStatus.completed || s == RequestStatus.rejected

/-- The skip condition of the `updateStatus` loop:
`completedStatus.includes(requestData.status) ||
 (completedStatus.includes(status) && requestData.status !== PROCESSING)`. -/
def skipCond (current target : RequestStatus) : Bool :=
  isTerminal current || (isTerminal target && !(current == RequestStatus.processing))

/-- The repository update issued by `updateStatus`:
`requestRepository.update({id: requestId}, {status})`. -/
def updateStatusField (rid : String) (st : RequestStatus) (db : DB) : DB :=
  { db with requests :=
      db.requests.map (fun r => if r.id == rid then { r with status := st } else r) }

/-- The repository update issued by `generatePdf`:
`requestRepository.update({id}, {url, status: PROCESSING, generation_date, attendant})`. -/
def updateGenerated (rid : String) (signedUrl : String) (gen : Nat)
    (attendant : Option UserProfile) (db : DB) : DB :=
  { db with requests :=
      db.requests.map (fun r =>
        if r.id == rid then
          { r with url := some signedUrl, status := RequestStatus.processing,
                   generation_date := some gen, attendant := attendant }
        else r) }

/-- The service's `checkForPendingRequests`: a `findOne` for a request of the
given user and declaration whose status is PENDING, coerced to a boolean. -/
def checkForPendingRequests (userId declarationId : String) (db : DB) : Bool :=
  (db.requests.find? (fun r =>
    r.user.map UserProfile.id == some userId &&
    r.declaration.map Declaration.id == some declarationId &&
    r.status == RequestStatus.pending)).isSome

/-- Expansion of `$`-escapes in the replacement string of JavaScript
`String.prototype.replace` (ECMAScript GetSubstitution), for a pattern
without capture groups: `$$` gives a dollar, `$&` the matched text, a
dollar-backquote the text before the match, a dollar-quote the text after
it; any other `$` is literal. -/
def dollarSubst (matched before after : List Char) : List Char → List Char
  | [] => []
  | ['$'] => ['$']
  | '$' :: d :: rest2 =>
    if d = '$' then '$' :: dollarSubst matched before after rest2
    else if d = '&' then matched ++ dollarSubst matched before after rest2
    else if d = Char.ofNat 96 then before ++ dollarSubst matched before after rest2
    else if d = Char.ofNat 39 then after ++ dollarSubst matched before after rest2
    else '$' :: dollarSubst matched before after (d :: rest2)
  | c :: rest => c :: dollarSubst matched before after rest

/-- Scanner of `String.prototype.replace` with a global regex whose pattern
is a nonempty literal: scan left to right, replace each non-overlapping
occurrence of `pat` (expanding `$`-escapes in `rep`), resume after the
matched text.  `skip` counts matched characters still to be consumed and
`consumed` is the prefix of the original string already passed (needed by
the dollar-backquote escape). -/
def goRA (pat rep : List Char) : Nat → List Char → List Char → List Char
  | _, _, [] => []
  | Nat.succ n, consumed, c :: rest => goRA pat rep n (consumed ++ [c]) rest
  | 0, consumed, c :: rest =>
    if pat.isPrefixOf (c :: rest) && !pat.isEmpty then
      dollarSubst pat consumed ((c :: rest).drop pat.length) rep ++
        goRA pat rep (pat.length - 1) (consumed ++ [c]) rest
    else c :: goRA pat rep 0 (consumed ++ [c]) rest

/-- JavaScript `s.replace(new RegExp(pat, 'g'), rep)` for a literal pattern
`pat` (the service interpolates plain identifier keys, on which the regex
engine matches the braces and the key literally). -/
def jsReplaceAll (s pat rep : List Char) : List Char :=
  goRA pat rep 0 [] s

/-- The token the service builds for a key: `new RegExp(`&#123;&#123;key&#125;&#125;`, 'g')`
matches the literal text of the two braces, the key, and two braces. -/
def tokPat (key : List Char) : List Char :=
  '\x7b' :: '\x7b' :: (key ++ ['\x7d', '\x7d'])

/-- Core of the service's `replacePlaceholders`:
`Object.entries(data).reduce((result, [key, value]) => result.replace(new RegExp(..., 'g'), value), template)`. -/
def replacePlaceholdersL (template : List Char) (data : List (List Char × List Char)) :
    List Char :=
  data.foldl (fun result kv => jsReplaceAll result (tokPat kv.1) kv.2) template

/-- The service's `replacePlaceholders` on strings; `data` keeps the
insertion order of the object literal, as `Object.entries` does. -/
def replacePlaceholders (template : String) (data : List (String × String)) : String :=
  String.mk (replacePlaceholdersL template.toList
    (data.map (fun kv => (kv.1.toList, kv.2.toList))))

/-- Occurrence test: does `pat` occur as contiguous text inside `s`? -/
def hasOcc (pat : List Char) : List Char → Bool
  | [] => pat.isPrefixOf []
  | c :: rest => pat.isPrefixOf (c :: rest) || hasOcc pat rest

/-- The service's `formatCep`: strip non-digits (`replace(/\D/g, '')`), pad
on the left with zeros to length 8 (`padStart(8, '0')`), then
`slice(0, 5)` and `slice(5)` joined by a hyphen. -/
def formatCep (cep : String) : String :=
  let sanitizedCep := cep.toList.filter Char.isDigit
  let paddedCep := List.replicate (8 - sanitizedCep.length) '0' ++ sanitizedCep
  String.mk (paddedCep.take 5) ++ "-" ++ String.mk (paddedCep.drop 5)

/-- Checks the `NNNNN-NNN` shape: nine characters, five digits, a hyphen,
three digits. -/
def isCepShape (s : String) : Bool :=
  s.toList.length == 9 && (s.toList.take 5).all Char.isDigit &&
    (s.toList.drop 5).take 1 == ['-'] && ((s.toList.drop 6).all Char.isDigit)

/-- Calendar value of the `new Date()` the service takes during generation;
`epochMillis` is what `Date.now()` returns for it. -/
structure DateV where
  day : Nat
  month : Nat
  year : Nat
  epochMillis : Nat
deriving DecidableEq, Repr

/-- Month names of the ptBR locale used by `date-fns`. -/
def monthNamePtBR (m : Nat) : String :=
  ["janeiro", "fevereiro", "março", "abril", "maio", "junho", "julho",
   "agosto", "setembro", "outubro", "novembro", "dezembro"].getD (m - 1) ""

/-- Two-digit day, as the `dd` pattern prints it. -/
def pad2 (n : Nat) : String :=
  if n < 10 then "0" ++ toString n else toString n

/-- The service's `formatDate`: `format(date, "dd 'de' MMMM 'de' yyyy", {locale: ptBR})`. -/
def formatDate (d : DateV) : String :=
  pad2 d.day ++ " de " ++ monthNamePtBR d.month ++ " de " ++ toString d.year

/-- The `userData` object literal assembled by `generatePdf`, in source
order; the complement is prefixed with a space when truthy (non-empty),
else the empty string. -/
def mkUserData (u : UserProfile) (dv : DateV) : List (String × String) :=
  [("nome", u.name),
   ("rua", u.street),
   ("numero_casa", u.house_number),
   ("complemento",
     match u.complement with
     | some c => if c = "" then "" else " " ++ c
     | none => ""),
   ("bairro", u.neighborhood),
   ("cidade", u.city),
   ("estado", u.state),
   ("cep", formatCep u.postal_code),
   ("data_atual", formatDate dv),
   ("rg", u.rg),
   ("cpf", u.cpf),
   ("orgao_emissor", u.issuing_agency)]

/-- Modelled from the spec: `request.entity.ts` with its column defaults is
not among the sources; §3 states a created Request has status PENDING and no
url, generation timestamp or attendant.  `requestRepository.create({user,
declaration})` therefore fills the remaining columns with these defaults,
and `save` assigns the id and creation timestamp. -/
def mkRequest (newId : String) (now : Nat) (user : Option UserProfile)
    (declaration : Declaration) : RequestEntity :=
  { id := newId, user := user, declaration := some declaration, attendant := none,
    status := RequestStatus.pending, createdAt := now,
    generation_date := none, url := none }

/-- The service's `createRequest`: guard against admins (`user &&
user.is_admin`), require the declaration to exist (a `ForbiddenException`
with message `Declaration not found.` otherwise), reject a duplicate
pending request with a `ConflictException`, then create and save. -/
def createRequest (declarationId userId newId : String) (now : Nat) (db : DB) :
    Except ServiceError RequestEntity × DB :=
  let user := usersFindById userId db
  if nonAdminCheckFails user then
    (.error (.forbidden "You do not have permission to perform this action. 4"), db)
  else
    match declFindById declarationId db with
    | none => (.error (.forbidden "Declaration not found."), db)
    | some declaration =>
      if checkForPendingRequests userId declarationId db then
        (.error (.conflict "You already have a pending request. Please wait for its completion before requesting again."), db)
      else
        let request := mkRequest newId now user declaration
        (.ok request, { db with requests := db.requests ++ [request] })

/-- Insertion into a list sorted descending by `key` (stable for equal keys). -/
def insertByDesc (key : RequestEntity → Nat) (r : RequestEntity) :
    List RequestEntity → List RequestEntity
  | [] => [r]
  | x :: xs => if key x < key r then r :: x :: xs else x :: insertByDesc key r xs

/-- Sort descending by `key`, modelling the repository's `order: DESC`. -/
def sortByDesc (key : RequestEntity → Nat) : List RequestEntity → List RequestEntity
  | [] => []
  | x :: xs => insertByDesc key x (sortByDesc key xs)

/-- View construction of `getRequests` and `updateStatus`
(`{id, name: request.user.name, requestDate, status}`); dereferencing the
`user` relation of a request that has none raises a TypeError. -/
def formatViews : List RequestEntity → Except ServiceError (List FormatRequest)
  | [] => .ok []
  | r :: rest =>
    match r.user with
    | none => .error .nullAccess
    | some u =>
      match formatViews rest with
      | .ok vs => .ok ({ id := r.id, name := u.name, requestDate := r.createdAt,
                         status := r.status } :: vs)
      | .error e => .error e

/-- View construction of `getRequestsWithDeclarations`, which additionally
exposes the url and the generation date. -/
def formatViewsGen : List RequestEntity → Except ServiceError (List FormatRequest)
  | [] => .ok []
  | r :: rest =>
    match r.user with
    | none => .error .nullAccess
    | some u =>
      match formatViewsGen rest with
      | .ok vs => .ok ({ id := r.id, name := u.name, requestDate := r.createdAt,
                         status := r.status, url := r.url,
                         generationDate := r.generation_date } :: vs)
      | .error e => .error e

/-- The service's `getRequests` (spec operation `listAllRequests`): the
admin guard, then all requests ordered by creation time descending. -/
def getRequests (userId : String) (db : DB) : Except ServiceError (List FormatRequest) :=
  if adminCheckFails (usersFindById userId db) then
    .error (.forbidden "You do not have permission to perform this action.")
  else
    formatViews (sortByDesc RequestEntity.createdAt db.requests)

/-- The service's `getRequestsWithDeclarations` (spec operation
`listRecentGenerated`): the admin guard, then requests with a non-null url
and a generation date strictly greater than `sevenDaysAgo`, ordered by
generation date descending. -/
def getRequestsWithDeclarations (userId : String) (sevenDaysAgo : Nat) (db : DB) :
    Except ServiceError (List FormatRequest) :=
  if adminCheckFails (usersFindById userId db) then
    .error (.forbidden "You do not have permission to perform this action.")
  else
    formatViewsGen (sortByDesc (fun r => r.generation_date.getD 0)
      (db.requests.filter (fun r =>
        r.url.isSome &&
        match r.generation_date with
        | some g => decide (sevenDaysAgo < g)
        | none => false)))

/-- The `for (const requestId of requestIds)` loop of `updateStatus`: fetch
(a missing request makes the subsequent `.status` access raise, aborting the
whole call), skip per `skipCond`, otherwise update the status and push the
post-update view.  The thrown error discards the collected views but keeps
the updates already persisted. -/
def updateStatusLoop (target : RequestStatus) :
    List String → DB → Except ServiceError (List FormatRequest) × DB
  | [], db => (.ok [], db)
  | requestId :: rest, db =>
    match getRequestById requestId db with
    | none => (.error .nullAccess, db)
    | some requestData =>
      if skipCond requestData.status target then
        updateStatusLoop target rest db
      else
        let db2 := updateStatusField requestId target db
        match getRequestById requestId db2 with
        | none => (.error .nullAccess, db2)
        | some updated =>
          match updated.user with
          | none => (.error .nullAccess, db2)
          | some u =>
            match updateStatusLoop target rest db2 with
            | (.ok vs, db3) =>
              (.ok ({ id := requestId, name := u.name, requestDate := updated.createdAt,
                      status := updated.status } :: vs), db3)
            | (.error e, db3) => (.error e, db3)

/-- The service's `updateStatus`: the admin guard, then the per-id loop. -/
def updateStatus (userId : String) (dto : UpdateStatusDto) (db : DB) :
    Except ServiceError (List FormatRequest) × DB :=
  if adminCheckFails (usersFindById userId db) then
    (.error (.forbidden "You do not have permission to perform this action."), db)
  else
    updateStatusLoop dto.status dto.requestIds db

/-- Outcome of rendering the PDF for a file name, body and footer and
publishing it: either the signed url or a failure.  This oracle stands for
the external `generatePdfFile` + `uploadStorage` pair of the service. -/
def PdfOracle : Type := String → String → String → Except String String

/-- One iteration of the `generatePdf` batch loop, whole body inside
`try/catch`: a missing request, a non-PENDING status or a missing
declaration is skipped with a log; a thrown error (null dereference, render
or upload failure) is caught and only aborts this item.  On success the
request row is updated and its post-update view returned. -/
def generateItem (caller : Option UserProfile) (oracle : PdfOracle) (dv : DateV)
    (db : DB) (requestId : String) : Option FormatRequest × DB :=
  match getRequestById requestId db with
  | none => (none, db)
  | some requestData =>
    if requestData.status != RequestStatus.pending then (none, db)
    else
      match requestData.declaration with
      | none => (none, db)
      | some rdecl =>
        match declFindById rdecl.id db with
        | none => (none, db)
        | some declaration =>
          match requestData.user with
          | none => (none, db)
          | some u =>
            let userData := mkUserData u dv
            let modifiedContent := replacePlaceholders declaration.content userData
            let footerContent := replacePlaceholders declaration.footer userData
            let fileName := requestId ++ "_" ++ toString dv.epochMillis ++ ".pdf"
            match oracle fileName modifiedContent footerContent with
            | .error _ => (none, db)
            | .ok signedUrl =>
              let db2 := updateGenerated requestId signedUrl dv.epochMillis caller db
              match getRequestById requestId db2 with
              | none => (none, db2)
              | some updated =>
                match updated.user with
                | none => (none, db2)
                | some uu =>
                  (some { id := requestId, name := uu.name,
                          requestDate := updated.createdAt,
                          status := updated.status, url := updated.url }, db2)

/-- The `for (const requestId of requestIds)` loop of `generatePdf`; the
final `filter(req => req !== null)` of the service is the identity because
no null is ever pushed. -/
def generateLoop (caller : Option UserProfile) (oracle : PdfOracle) (dv : DateV) :
    List String → DB → List FormatRequest × DB
  | [], db => ([], db)
  | requestId :: rest, db =>
    match generateItem caller oracle dv db requestId with
    | (some v, db2) =>
      let r := generateLoop caller oracle dv rest db2
      (v :: r.1, r.2)
    | (none, db2) => generateLoop caller oracle dv rest db2

/-- The service's `generatePdf` (spec operation `generateDocuments`): the
admin guard, then the per-id batch loop. -/
def generatePdf (userId : String) (dto : GeneratePdfDto) (oracle : PdfOracle)
    (dv : DateV) (db : DB) : Except ServiceError (List FormatRequest) × DB :=
  if adminCheckFails (usersFindById userId db) then
    (.error (.forbidden "You do not have permission to perform this action"), db)
  else
    let r := generateLoop (usersFindById userId db) oracle dv dto.requestIds db
    (.ok r.1, r.2)

/-- View list of an operation result, empty when the call threw. -/
def resViews (x : Except ServiceError (List FormatRequest) × DB) : List FormatRequest :=
  match x.1 with
  | .ok vs => vs
  | .error _ => []

/-- Whether a result is a normal return. -/
def isOkE {α : Type} (x : Except ServiceError α) : Bool :=
  match x with
  | .ok _ => true
  | .error _ => false

/-- Invariant of §8 of the spec for one request: PENDING implies no url and
no generation timestamp, and a url implies not PENDING. -/
def reqInvariant (r : RequestEntity) : Prop :=
  (r.status = RequestStatus.pending → r.url = none ∧ r.generation_date = none) ∧
  (r.url ≠ none → r.status ≠ RequestStatus.pending)

/-- The invariant over the whole store. -/
def dbInv (db : DB) : Prop :=
  ∀ r ∈ db.requests, reqInvariant r

/-- Two requests that are both PENDING for the same (user, declaration)
pair. -/
def samePendingPair (r1 r2 : RequestEntity) : Prop :=
  r1.status = RequestStatus.pending ∧ r2.status = RequestStatus.pending ∧
  r1.user.map UserProfile.id = r2.user.map UserProfile.id ∧
  r1.declaration.map Declaration.id = r2.declaration.map Declaration.id

/-- At most one PENDING request per (user, declaration) pair. -/
def atMostOnePending (db : DB) : Prop :=
  db.requests.Pairwise (fun r1 r2 => ¬ samePendingPair r1 r2)

/-- Views keyed by id never mention the given id. -/
def idAbsent (i : String) (vs : List FormatRequest) : Prop :=
  ∀ v ∈ vs, v.id ≠ i

/-- Some view carries the given id and status. -/
def idWithStatus (i : String) (st : RequestStatus) (vs : List FormatRequest) : Prop :=
  ∃ v ∈ vs, v.id = i ∧ v.status = st

/-- Every id of the list resolves to a stored request. -/
def allIdsExist (ids : List String) (db : DB) : Prop :=
  ∀ i ∈ ids, ∃ r ∈ db.requests, r.id = i

/-- Every stored request has its user relation loaded. -/
def allUsersLoaded (db : DB) : Prop :=
  ∀ r ∈ db.requests, r.user.isSome = true

/-- Request ids are unique in the store (the primary-key discipline). -/
def idsNodup (db : DB) : Prop :=
  (db.requests.map RequestEntity.id).Nodup

instance (r : RequestEntity) : Decidable (reqInvariant r) := by
  unfold reqInvariant; infer_instance

instance (db : DB) : Decidable (dbInv db) := by
  unfold dbInv; infer_instance

instance (r1 r2 : RequestEntity) : Decidable (samePendingPair r1 r2) := by
  unfold samePendingPair; infer_instance

instance (db : DB) : Decidable (atMostOnePending db) := by
  unfold atMostOnePending; infer_instance

instance (i : String) (vs : List FormatRequest) : Decidable (idAbsent i vs) := by
  unfold idAbsent; infer_instance

instance (i : String) (st : RequestStatus) (vs : List FormatRequest) :
    Decidable (idWithStatus i st vs) := by
  unfold idWithStatus; infer_instance

instance (ids : List String) (db : DB) : Decidable (allIdsExist ids db) := by
  unfold allIdsExist; infer_instance

instance (db : DB) : Decidable (allUsersLoaded db) := by
  unfold allUsersLoaded; infer_instance

instance (db : DB) : Decidable (idsNodup db) := by
  unfold idsNodup; infer_instance

/-- Example non-admin user. -/
def exUser : UserProfile :=
  { id := "u1", name := "Ana", street := "Rua A", house_number := "10",
    complement := none, neighborhood := "Centro", city := "SP", state := "SP",
    postal_code := "1234567", rg := "12", cpf := "34", issuing_agency := "SSP",
    is_admin := false }

/-- Example admin user. -/
def exAdmin : UserProfile :=
  { exUser with id := "a1", name := "Bob", is_admin := true }

/-- Example declaration with empty template text. -/
def exDecl : Declaration :=
  { id := "d1", type := "enrollment", title := "Decl", content := "", footer := "" }

/-- Example PENDING request. -/
def exReqPending : RequestEntity :=
  { id := "r1", user := some exUser, declaration := some exDecl, attendant := none,
    status := RequestStatus.pending, createdAt := 5, generation_date := none,
    url := none }

/-- Example COMPLETED request. -/
def exReqCompleted : RequestEntity :=
  { exReqPending with id := "r2", status := RequestStatus.completed }

/-- Example PROCESSING request that already carries a url. -/
def exReqProcessing : RequestEntity :=
  { exReqPending with
    id := "r3",
    status := RequestStatus.processing,
    generation_date := some 3,
    url := some "http://u",
    attendant := some exAdmin }

/-- Example store. -/
def exDb : DB :=
  { users := [exUser, exAdmin], declarations := [exDecl],
    requests := [exReqPending, exReqCompleted, exReqProcessing] }

theorem adminCheckFails_some (p : UserProfile) :
    adminCheckFails (some p) = !p.is_admin := rfl

theorem find?_id_of_nodup (l : List RequestEntity)
    (hnd : (l.map RequestEntity.id).Nodup) (r : RequestEntity) (hr : r ∈ l) :
    l.find? (fun x => x.id == r.id) = some r := by
  induction l with
  | nil => cases hr
  | cons a l ih =>
    rw [List.map_cons, List.nodup_cons] at hnd
    rcases List.mem_cons.mp hr with h | h
    · subst h
      simp [List.find?_cons]
    · rw [List.find?_cons]
      have hne : (a.id == r.id) = false := by
        rw [beq_eq_false_iff_ne]
        intro he
        exact hnd.1 (he ▸ List.mem_map_of_mem RequestEntity.id h)
      rw [hne]
      exact ih hnd.2 h

theorem getRequestById_of_mem (db : DB) (hnd : idsNodup db) (r : RequestEntity)
    (hr : r ∈ db.requests) : getRequestById r.id db = some r :=
  find?_id_of_nodup db.requests hnd r hr

theorem getRequestById_none_of_not_mem (i : String) (db : DB)
    (h : i ∉ db.requests.map RequestEntity.id) : getRequestById i db = none := by
  unfold getRequestById
  rw [List.find?_eq_none]
  intro r hr hri
  have hri' : r.id = i := beq_iff_eq.mp hri
  exact h (hri' ▸ List.mem_map_of_mem RequestEntity.id hr)

theorem getRequestById_mem (i : String) (db : DB) (q : RequestEntity)
    (h : getRequestById i db = some q) : q ∈ db.requests ∧ q.id = i := by
  unfold getRequestById at h
  have h1 := List.mem_of_find?_eq_some h
  have h2 : (q.id == i) = true := @List.find?_some _ (fun r => r.id == i) q db.requests h
  exact ⟨h1, beq_iff_eq.mp h2⟩

theorem getRequestById_isSome (i : String) (db : DB) (r : RequestEntity)
    (hr : r ∈ db.requests) (hid : r.id = i) :
    ∃ q, getRequestById i db = some q ∧ q ∈ db.requests ∧ q.id = i := by
  have hs : (db.requests.find? (fun x => x.id == i)).isSome = true := by
    rw [List.find?_isSome]
    exact ⟨r, hr, beq_iff_eq.mpr hid⟩
  rcases Option.isSome_iff_exists.mp hs with ⟨q, hq⟩
  exact ⟨q, hq, getRequestById_mem i db q hq⟩

theorem find?_id_map (l : List RequestEntity) (f : RequestEntity → RequestEntity)
    (hf : ∀ x, (f x).id = x.id) (j : String) :
    (l.map f).find? (fun x => x.id == j) = (l.find? (fun x => x.id == j)).map f := by
  induction l with
  | nil => rfl
  | cons a l ih =>
    rw [List.map_cons, List.find?_cons, List.find?_cons]
    have hfa : ((f a).id == j) = (a.id == j) := by rw [hf a]
    cases h : (a.id == j) with
    | true => simp [hfa, h]
    | false => simp only [hfa, h]; exact ih

theorem getRequestById_updateStatusField (j rid : String) (st : RequestStatus) (db : DB) :
    getRequestById j (updateStatusField rid st db) =
      (getRequestById j db).map
        (fun r => if r.id == rid then { r with status := st } else r) := by
  unfold getRequestById updateStatusField
  exact find?_id_map db.requests _ (fun x => by by_cases h : x.id = rid <;> simp [h]) j

theorem getRequestById_updateGenerated (j rid : String) (u : String) (g : Nat)
    (att : Option UserProfile) (db : DB) :
    getRequestById j (updateGenerated rid u g att db) =
      (getRequestById j db).map
        (fun r => if r.id == rid then
            { r with url := some u, status := RequestStatus.processing,
                     generation_date := some g, attendant := att }
          else r) := by
  unfold getRequestById updateGenerated
  exact find?_id_map db.requests _ (fun x => by by_cases h : x.id = rid <;> simp [h]) j

theorem updateStatusField_map_id (rid : String) (st : RequestStatus) (db : DB) :
    (updateStatusField rid st db).requests.map RequestEntity.id =
      db.requests.map RequestEntity.id := by
  unfold updateStatusField
  rw [List.map_map]
  apply List.map_congr_left
  intro x _
  by_cases h : x.id = rid <;> simp [h]

theorem updateGenerated_map_id (rid u : String) (g : Nat) (att : Option UserProfile)
    (db : DB) :
    (updateGenerated rid u g att db).requests.map RequestEntity.id =
      db.requests.map RequestEntity.id := by
  unfold updateGenerated
  rw [List.map_map]
  apply List.map_congr_left
  intro x _
  by_cases h : x.id = rid <;> simp [h]

theorem idsNodup_updateStatusField (rid : String) (st : RequestStatus) (db : DB)
    (h : idsNodup db) : idsNodup (updateStatusField rid st db) := by
  unfold idsNodup
  rw [updateStatusField_map_id]
  exact h

theorem idsNodup_updateGenerated (rid u : String) (g : Nat) (att : Option UserProfile)
    (db : DB) (h : idsNodup db) : idsNodup (updateGenerated rid u g att db) := by
  unfold idsNodup
  rw [updateGenerated_map_id]
  exact h

theorem allUsersLoaded_updateStatusField (rid : String) (st : RequestStatus) (db : DB)
    (h : allUsersLoaded db) : allUsersLoaded (updateStatusField rid st db) := by
  intro r' hr'
  rcases List.mem_map.mp hr' with ⟨r, hr, rfl⟩
  by_cases hb : r.id = rid <;> simp [hb] <;> exact h r hr

theorem allUsersLoaded_updateGenerated (rid u : String) (g : Nat)
    (att : Option UserProfile) (db : DB) (h : allUsersLoaded db) :
    allUsersLoaded (updateGenerated rid u g att db) := by
  intro r' hr'
  rcases List.mem_map.mp hr' with ⟨r, hr, rfl⟩
  by_cases hb : r.id = rid <;> simp [hb] <;> exact h r hr

theorem allIdsExist_of_map_id_eq (ids : List String) (db db' : DB)
    (hmap : db'.requests.map RequestEntity.id = db.requests.map RequestEntity.id)
    (h : allIdsExist ids db) : allIdsExist ids db' := by
  intro i hi
  rcases h i hi with ⟨r, hr, hid⟩
  have : r.id ∈ db'.requests.map RequestEntity.id := by
    rw [hmap]
    exact List.mem_map_of_mem RequestEntity.id hr
  rcases List.mem_map.mp this with ⟨q, hq, hqid⟩
  exact ⟨q, hq, hqid.trans hid⟩

theorem mem_updateStatusField_of_ne (rid : String) (st : RequestStatus) (db : DB)
    (q : RequestEntity) (hq : q ∈ db.requests) (hne : q.id ≠ rid) :
    q ∈ (updateStatusField rid st db).requests := by
  unfold updateStatusField
  have he : (if q.id == rid then { q with status := st } else q) = q := by
    simp [hne]
  exact he ▸ List.mem_map_of_mem _ hq

theorem mem_updateGenerated_of_ne (rid u : String) (g : Nat) (att : Option UserProfile)
    (db : DB) (q : RequestEntity) (hq : q ∈ db.requests) (hne : q.id ≠ rid) :
    q ∈ (updateGenerated rid u g att db).requests := by
  unfold updateGenerated
  have he : (if q.id == rid then
      { q with url := some u, status := RequestStatus.processing,
               generation_date := some g, attendant := att } else q) = q := by
    simp [hne]
  exact he ▸ List.mem_map_of_mem _ hq

deriving instance DecidableEq for Except

/-- Whether a result is a NestJS `NotFoundException`. -/
def isNotFoundE {α : Type} : Except ServiceError α → Bool
  | .error (.notFound _) => true
  | _ => false

/-- C2 (amended): for every caller id whose resolved profile exists and has
`is_admin = false`, each admin-only operation (`getRequests`,
`getRequestsWithDeclarations`, `updateStatus`, `generatePdf`) fails with the
PermissionDenied error (`ForbiddenException`) raised before any request is
read or mutated, and leaves the store unchanged.  (The unamended claim also
covered a caller id resolving to no profile; the code's `user &&
!user.is_admin` guard lets such a caller through — see the
counterexample.) -/
theorem C2_admin_ops_deny_resolved_nonadmin (cid : String) (db : DB) (p : UserProfile)
    (dto : UpdateStatusDto) (gdto : GeneratePdfDto) (oracle : PdfOracle) (dv : DateV)
    (cutoff : Nat) (hp : usersFindById cid db = some p) (hna : p.is_admin = false) :
    getRequests cid db =
      Except.error (ServiceError.forbidden "You do not have permission to perform this action.") ∧
    getRequestsWithDeclarations cid cutoff db =
      Except.error (ServiceError.forbidden "You do not have permission to perform this action.") ∧
    updateStatus cid dto db =
      (Except.error (ServiceError.forbidden "You do not have permission to perform this action."), db) ∧
    generatePdf cid gdto oracle dv db =
      (Except.error (ServiceError.forbidden "You do not have permission to perform this action"), db) := by
  have hfail : adminCheckFails (usersFindById cid db) = true := by
    rw [hp, adminCheckFails_some, hna]
    rfl
  refine ⟨?_, ?_, ?_, ?_⟩
  · unfold getRequests
    rw [hfail]
    rfl
  · unfold getRequestsWithDeclarations
    rw [hfail]
    rfl
  · unfold updateStatus
    rw [hfail]
    rfl
  · unfold generatePdf
    rw [hfail]
    rfl

/-- C2 counterexample: the caller id `ghost` resolves to no user profile, yet
`getRequests` succeeds instead of failing with PermissionDenied, and
`updateStatus` even mutates a stored request. -/
theorem C2_counterexample :
    usersFindById "ghost" exDb = none ∧
    isOkE (getRequests "ghost" exDb) = true ∧
    isOkE (updateStatus "ghost" ⟨RequestStatus.processing, ["r1"]⟩ exDb).1 = true ∧
    (getRequestById "r1" (updateStatus "ghost" ⟨RequestStatus.processing, ["r1"]⟩ exDb).2).map
      RequestEntity.status = some RequestStatus.processing := by
  decide

/-- C2 witness: the amended theorem applied to the resolved non-admin `exUser`. -/
theorem C2_witness :
    usersFindById "u1" exDb = some exUser ∧ exUser.is_admin = false ∧
    updateStatus "u1" ⟨RequestStatus.processing, ["r1"]⟩ exDb =
      (Except.error (ServiceError.forbidden "You do not have permission to perform this action."), exDb) :=
  ⟨rfl, rfl,
    (C2_admin_ops_deny_resolved_nonadmin "u1" exDb exUser
      ⟨RequestStatus.processing, ["r1"]⟩ ⟨["r1"]⟩ (fun _ _ _ => Except.ok "u")
      ⟨1, 1, 2026, 0⟩ 0 rfl rfl).2.2.1⟩

/-- C3 (amended): for a caller resolving to a non-admin profile and a
declaration id that resolves to no declaration, `createRequest` fails with
the PermissionDenied error class (`ForbiddenException`) carrying the message
`Declaration not found.` — not Conflict, and, against the unamended claim,
not the NotFound class — and creates nothing. -/
theorem C3_missing_declaration_is_forbidden (did cid nid : String) (now : Nat)
    (db : DB) (p : UserProfile) (hp : usersFindById cid db = some p)
    (hna : p.is_admin = false) (hd : declFindById did db = none) :
    createRequest did cid nid now db =
      (Except.error (ServiceError.forbidden "Declaration not found."), db) := by
  have hguard : nonAdminCheckFails (usersFindById cid db) = false := by
    rw [hp]
    unfold nonAdminCheckFails
    exact hna
  unfold createRequest
  simp only [hguard, hd, Bool.false_eq_true, if_false]

/-- C3 counterexample: at a concrete non-admin caller and missing
declaration id, the raised error is the `ForbiddenException` with message
`Declaration not found.`, not a `NotFoundException`, refuting the claim that
the failure is the NotFound error. -/
theorem C3_counterexample :
    (createRequest "missing" "u1" "rN" 0 exDb).1 =
      Except.error (ServiceError.forbidden "Declaration not found.") ∧
    isNotFoundE (createRequest "missing" "u1" "rN" 0 exDb).1 = false ∧
    (createRequest "missing" "u1" "rN" 0 exDb).2 = exDb := by
  decide

/-- C3 witness: the amended theorem applied at the same concrete input. -/
theorem C3_witness :
    usersFindById "u1" exDb = some exUser ∧ exUser.is_admin = false ∧
    declFindById "missing" exDb = none ∧
    createRequest "missing" "u1" "rN" 0 exDb =
      (Except.error (ServiceError.forbidden "Declaration not found."), exDb) :=
  ⟨rfl, rfl, by decide,
    C3_missing_declaration_is_forbidden "missing" "u1" "rN" 0 exDb exUser rfl rfl (by decide)⟩

theorem formatCep_chars (s : String) :
    (formatCep s).toList =
      ((List.replicate (8 - (s.toList.filter Char.isDigit).length) '0' ++
        s.toList.filter Char.isDigit).take 5) ++
      '-' :: ((List.replicate (8 - (s.toList.filter Char.isDigit).length) '0' ++
        s.toList.filter Char.isDigit).drop 5) := by
  simp [formatCep, String.toList, String.data_append]

/-- C9 (amended): for every input string containing at most eight digit
characters, `formatCep` keeps exactly the input's digits left-padded with
zeros to eight, and its output has the `NNNNN-NNN` shape (five digits, a
hyphen, three digits).  The unamended claim quantified over every input
string; with nine or more digits `padStart` pads nothing and `slice(5)`
returns more than three characters (see the counterexample). -/
theorem C9_formatCep_normalizes (s : String)
    (h : (s.toList.filter Char.isDigit).length ≤ 8) :
    isCepShape (formatCep s) = true ∧
    (formatCep s).toList.filter Char.isDigit =
      List.replicate (8 - (s.toList.filter Char.isDigit).length) '0' ++
        s.toList.filter Char.isDigit := by
  have hds : ∀ c ∈ s.toList.filter Char.isDigit, c.isDigit = true := by
    intro c hc
    exact (List.mem_filter.mp hc).2
  have hpadded : ∀ c ∈ List.replicate (8 - (s.toList.filter Char.isDigit).length) '0' ++
      s.toList.filter Char.isDigit, c.isDigit = true := by
    intro c hc
    rcases List.mem_append.mp hc with hc | hc
    · rw [(List.mem_replicate.mp hc).2]
      decide
    · exact hds c hc
  have hlen : (List.replicate (8 - (s.toList.filter Char.isDigit).length) '0' ++
      s.toList.filter Char.isDigit).length = 8 := by
    rw [List.length_append, List.length_replicate]
    omega
  have hA : ((List.replicate (8 - (s.toList.filter Char.isDigit).length) '0' ++
      s.toList.filter Char.isDigit).take 5).length = 5 := by
    rw [List.length_take, hlen]
    decide
  have hB : ((List.replicate (8 - (s.toList.filter Char.isDigit).length) '0' ++
      s.toList.filter Char.isDigit).drop 5).length = 3 := by
    rw [List.length_drop, hlen]
  constructor
  · unfold isCepShape
    rw [formatCep_chars s]
    have h1 : (((List.replicate (8 - (s.toList.filter Char.isDigit).length) '0' ++
        s.toList.filter Char.isDigit).take 5) ++
        '-' :: ((List.replicate (8 - (s.toList.filter Char.isDigit).length) '0' ++
        s.toList.filter Char.isDigit).drop 5)).length = 9 := by
      rw [List.length_append, hA, List.length_cons, hB]
    have h2 : (((List.replicate (8 - (s.toList.filter Char.isDigit).length) '0' ++
        s.toList.filter Char.isDigit).take 5) ++
        '-' :: ((List.replicate (8 - (s.toList.filter Char.isDigit).length) '0' ++
        s.toList.filter Char.isDigit).drop 5)).take 5 =
        (List.replicate (8 - (s.toList.filter Char.isDigit).length) '0' ++
        s.toList.filter Char.isDigit).take 5 := List.take_left' hA
    have h3 : (((List.replicate (8 - (s.toList.filter Char.isDigit).length) '0' ++
        s.toList.filter Char.isDigit).take 5) ++
        '-' :: ((List.replicate (8 - (s.toList.filter Char.isDigit).length) '0' ++
        s.toList.filter Char.isDigit).drop 5)).drop 5 =
        '-' :: ((List.replicate (8 - (s.toList.filter Char.isDigit).length) '0' ++
        s.toList.filter Char.isDigit).drop 5) := List.drop_left' hA
    have h6 : (((List.replicate (8 - (s.toList.filter Char.isDigit).length) '0' ++
        s.toList.filter Char.isDigit).take 5) ++
        '-' :: ((List.replicate (8 - (s.toList.filter Char.isDigit).length) '0' ++
        s.toList.filter Char.isDigit).drop 5)).drop 6 =
        (List.replicate (8 - (s.toList.filter Char.isDigit).length) '0' ++
        s.toList.filter Char.isDigit).drop 5 := by
      rw [← List.drop_drop 1 5, h3]
      rfl
    rw [h1, h2, h3, h6]
    simp only [List.all_eq_true, List.take_succ_cons, List.take_zero, beq_self_eq_true,
      Bool.and_eq_true, beq_iff_eq, and_true, true_and]
    refine ⟨?_, ?_⟩
    · intro c hc
      exact hpadded c (List.mem_of_mem_take hc)
    · intro c hc
      exact hpadded c (List.mem_of_mem_drop hc)
  · rw [formatCep_chars s]
    rw [List.filter_append]
    have hfA : ((List.replicate (8 - (s.toList.filter Char.isDigit).length) '0' ++
        s.toList.filter Char.isDigit).take 5).filter Char.isDigit =
        (List.replicate (8 - (s.toList.filter Char.isDigit).length) '0' ++
        s.toList.filter Char.isDigit).take 5 := by
      rw [List.filter_eq_self]
      intro c hc
      exact hpadded c (List.mem_of_mem_take hc)
    have hfB : ('-' :: ((List.replicate (8 - (s.toList.filter Char.isDigit).length) '0' ++
        s.toList.filter Char.isDigit).drop 5)).filter Char.isDigit =
        (List.replicate (8 - (s.toList.filter Char.isDigit).length) '0' ++
        s.toList.filter Char.isDigit).drop 5 := by
      rw [List.filter_cons]
      have hh : ('-' : Char).isDigit = false := by decide
      rw [hh]
      simp only [Bool.false_eq_true, if_false]
      rw [List.filter_eq_self]
      intro c hc
      exact hpadded c (List.mem_of_mem_drop hc)
    rw [hfA, hfB, List.take_append_drop]

/-- C9 counterexample: on the nine-digit input `123456789` the code pads
nothing and returns `12345-6789`, which is not of the `NNNNN-NNN` shape the
claim asserts for every input string. -/
theorem C9_counterexample :
    formatCep "123456789" = "12345-6789" ∧
    isCepShape (formatCep "123456789") = false := by
  decide

/-- C9 witness: the amended theorem at the claim's own example inputs, plus
the three input and output pairs listed by the claim. -/
theorem C9_witness :
    (("1234567" : String).toList.filter Char.isDigit).length ≤ 8 ∧
    isCepShape (formatCep "1234567") = true ∧
    (formatCep "1234567" = "01234-567" ∧ formatCep "01310-100" = "01310-100" ∧
      formatCep "123" = "00000-123") :=
  ⟨by decide, (C9_formatCep_normalizes "1234567" (by decide)).1, by decide⟩

theorem reqInvariant_set_status (r : RequestEntity) (st : RequestStatus)
    (hst : st ≠ RequestStatus.pending) : reqInvariant { r with status := st } := by
  constructor
  · intro hp
    exact absurd hp hst
  · intro _
    exact hst

theorem reqInvariant_generated (r : RequestEntity) (u : String) (g : Nat)
    (att : Option UserProfile) :
    reqInvariant { r with url := some u, status := RequestStatus.processing,
                          generation_date := some g, attendant := att } := by
  constructor
  · intro hp
    cases hp
  · intro _
    intro hp
    cases hp

theorem dbInv_updateStatusField (rid : String) (st : RequestStatus) (db : DB)
    (hinv : dbInv db) (hst : st ≠ RequestStatus.pending) :
    dbInv (updateStatusField rid st db) := by
  intro r' hr'
  rcases List.mem_map.mp hr' with ⟨r, hr, rfl⟩
  by_cases h : r.id = rid
  · simp only [h, beq_self_eq_true, if_true]
    exact reqInvariant_set_status r st hst
  · have hb : (r.id == rid) = false := by simp [h]
    simp only [hb, Bool.false_eq_true, if_false]
    exact hinv r hr

theorem dbInv_updateGenerated (rid u : String) (g : Nat) (att : Option UserProfile)
    (db : DB) (hinv : dbInv db) : dbInv (updateGenerated rid u g att db) := by
  intro r' hr'
  rcases List.mem_map.mp hr' with ⟨r, hr, rfl⟩
  by_cases h : r.id = rid
  · simp only [h, beq_self_eq_true, if_true]
    exact reqInvariant_generated r u g att
  · have hb : (r.id == rid) = false := by simp [h]
    simp only [hb, Bool.false_eq_true, if_false]
    exact hinv r hr

theorem dbInv_updateStatusLoop (target : RequestStatus)
    (htg : target ≠ RequestStatus.pending) (ids : List String) :
    ∀ db : DB, dbInv db → dbInv (updateStatusLoop target ids db).2 := by
  induction ids with
  | nil =>
    intro db h
    exact h
  | cons i rest ih =>
    intro db h
    unfold updateStatusLoop
    cases h1 : getRequestById i db with
    | none => exact h
    | some rd =>
      by_cases hsk : skipCond rd.status target = true
      · simp only [hsk, if_true]
        exact ih db h
      · have hsk' : skipCond rd.status target = false := by
          revert hsk
          cases skipCond rd.status target <;> simp
        simp only [hsk', Bool.false_eq_true, if_false]
        have h2 : dbInv (updateStatusField i target db) :=
          dbInv_updateStatusField i target db h htg
        cases h3 : getRequestById i (updateStatusField i target db) with
        | none => exact h2
        | some upd =>
          dsimp only
          cases h4 : upd.user with
          | none => exact h2
          | some u =>
            dsimp only
            have h5 := ih (updateStatusField i target db) h2
            cases h6 : updateStatusLoop target rest (updateStatusField i target db) with
            | mk res db3 =>
              rw [h6] at h5
              cases res with
              | ok vs => exact h5
              | error e => exact h5

theorem dbInv_generateItem (caller : Option UserProfile) (oracle : PdfOracle)
    (dv : DateV) (db : DB) (rid : String) (hinv : dbInv db) :
    dbInv (generateItem caller oracle dv db rid).2 := by
  unfold generateItem
  cases h1 : getRequestById rid db with
  | none => exact hinv
  | some rd =>
    by_cases h2 : (rd.status != RequestStatus.pending) = true
    · simp only [h2, if_true]
      exact hinv
    · have h2' : (rd.status != RequestStatus.pending) = false := by
        revert h2
        cases rd.status != RequestStatus.pending <;> simp
      simp only [h2', Bool.false_eq_true, if_false]
      cases rd.declaration with
      | none => exact hinv
      | some rdecl =>
        dsimp only
        cases declFindById rdecl.id db with
        | none => exact hinv
        | some decl =>
          dsimp only
          cases rd.user with
          | none => exact hinv
          | some u =>
            dsimp only
            cases oracle (rid ++ "_" ++ toString dv.epochMillis ++ ".pdf")
                (replacePlaceholders decl.content (mkUserData u dv))
                (replacePlaceholders decl.footer (mkUserData u dv)) with
            | error e => exact hinv
            | ok signedUrl =>
              dsimp only
              have hup : dbInv (updateGenerated rid signedUrl dv.epochMillis caller db) :=
                dbInv_updateGenerated rid signedUrl dv.epochMillis caller db hinv
              cases getRequestById rid (updateGenerated rid signedUrl dv.epochMillis caller db) with
              | none => exact hup
              | some upd =>
                dsimp only
                cases upd.user with
                | none => exact hup
                | some uu => exact hup

theorem dbInv_generateLoop (caller : Option UserProfile) (oracle : PdfOracle)
    (dv : DateV) (ids : List String) :
    ∀ db : DB, dbInv db → dbInv (generateLoop caller oracle dv ids db).2 := by
  induction ids with
  | nil =>
    intro db h
    exact h
  | cons i rest ih =>
    intro db h
    unfold generateLoop
    have hi := dbInv_generateItem caller oracle dv db i h
    cases h1 : generateItem caller oracle dv db i with
    | mk ov db2 =>
      rw [h1] at hi
      cases ov with
      | some v => exact ih db2 hi
      | none => exact ih db2 hi

/-- C1 (amended): starting from any store satisfying the PENDING/url
invariant, `createRequest` and `generatePdf` preserve it unconditionally,
and `updateStatus` preserves it whenever the admin-chosen target status is
not PENDING.  The unamended claim covered every target status; with target
PENDING an admin can move a PROCESSING request that already carries a url
back to PENDING, breaking the invariant (see the counterexample). -/
theorem C1_invariant_preserved (did cid nid cid2 cid3 : String) (now : Nat)
    (dto : UpdateStatusDto) (gdto : GeneratePdfDto) (oracle : PdfOracle) (dv : DateV)
    (db : DB) (hinv : dbInv db) :
    dbInv (createRequest did cid nid now db).2 ∧
    (dto.status ≠ RequestStatus.pending → dbInv (updateStatus cid2 dto db).2) ∧
    dbInv (generatePdf cid3 gdto oracle dv db).2 := by
  refine ⟨?_, ?_, ?_⟩
  · unfold createRequest
    dsimp only
    by_cases hg : nonAdminCheckFails (usersFindById cid db) = true
    · simp only [hg, if_true]
      exact hinv
    · have hg' : nonAdminCheckFails (usersFindById cid db) = false := by
        revert hg
        cases nonAdminCheckFails (usersFindById cid db) <;> simp
      simp only [hg', Bool.false_eq_true, if_false]
      cases hd : declFindById did db with
      | none => exact hinv
      | some decl =>
        dsimp only
        by_cases hc : checkForPendingRequests cid did db = true
        · simp only [hc, if_true]
          exact hinv
        · have hc' : checkForPendingRequests cid did db = false := by
            revert hc
            cases checkForPendingRequests cid did db <;> simp
          simp only [hc', Bool.false_eq_true, if_false]
          intro r hr
          rcases List.mem_append.mp hr with hr | hr
          · exact hinv r hr
          · have hreq : r = mkRequest nid now (usersFindById cid db) decl :=
              List.mem_singleton.mp hr
            rw [hreq]
            constructor
            · intro _
              exact ⟨rfl, rfl⟩
            · intro hne
              exact absurd rfl hne
  · intro hne
    unfold updateStatus
    by_cases hg : adminCheckFails (usersFindById cid2 db) = true
    · simp only [hg, if_true]
      exact hinv
    · have hg' : adminCheckFails (usersFindById cid2 db) = false := by
        revert hg
        cases adminCheckFails (usersFindById cid2 db) <;> simp
      simp only [hg', Bool.false_eq_true, if_false]
      exact dbInv_updateStatusLoop dto.status hne dto.requestIds db hinv
  · unfold generatePdf
    by_cases hg : adminCheckFails (usersFindById cid3 db) = true
    · simp only [hg, if_true]
      exact hinv
    · have hg' : adminCheckFails (usersFindById cid3 db) = false := by
        revert hg
        cases adminCheckFails (usersFindById cid3 db) <;> simp
      simp only [hg', Bool.false_eq_true, if_false]
      exact dbInv_generateLoop (usersFindById cid3 db) oracle dv gdto.requestIds db hinv

/-- C1 counterexample: the invariant holds in `exDb`, but one `updateStatus`
call by the admin with target status PENDING on the PROCESSING request
`r3` (which carries a url) leaves the store with a PENDING request whose url
is non-null. -/
theorem C1_counterexample :
    dbInv exDb ∧
    ¬ dbInv (updateStatus "a1" ⟨RequestStatus.pending, ["r3"]⟩ exDb).2 := by
  decide

/-- C1 witness: the amended theorem applied to `exDb` with target status
PROCESSING. -/
theorem C1_witness :
    dbInv exDb ∧
    (dbInv (createRequest "d1" "u1" "rN" 9 exDb).2 ∧
     (RequestStatus.processing ≠ RequestStatus.pending →
        dbInv (updateStatus "a1" ⟨RequestStatus.processing, ["r1"]⟩ exDb).2) ∧
     dbInv (generatePdf "a1" ⟨["r1"]⟩ (fun _ _ _ => Except.ok "http://s") ⟨1, 1, 2026, 7⟩ exDb).2) :=
  ⟨by decide,
    C1_invariant_preserved "d1" "u1" "rN" "a1" "a1" 9
      ⟨RequestStatus.processing, ["r1"]⟩ ⟨["r1"]⟩ (fun _ _ _ => Except.ok "http://s")
      ⟨1, 1, 2026, 7⟩ exDb (by decide)⟩

theorem usersFindById_id (cid : String) (db : DB) (u : UserProfile)
    (h : usersFindById cid db = some u) : u.id = cid := by
  unfold usersFindById at h
  have hb := List.find?_some h
  exact beq_iff_eq.mp hb

theorem declFindById_id (did : String) (db : DB) (d : Declaration)
    (h : declFindById did db = some d) : d.id = did := by
  unfold declFindById at h
  have hb := List.find?_some h
  exact beq_iff_eq.mp hb

/-- C6 (confirmed): for a resolved non-admin caller and an existing
declaration, `createRequest` fails with Conflict exactly when the caller
already has a PENDING request for this (user, declaration) pair, creating
nothing; otherwise it appends one new request with status PENDING and no
url, generation timestamp or attendant; and consequently it preserves the
at-most-one-PENDING-per-pair property. -/
theorem C6_createRequest_pending_unique (did cid nid : String) (now : Nat) (db : DB)
    (u : UserProfile) (d : Declaration)
    (hu : usersFindById cid db = some u) (hna : u.is_admin = false)
    (hd : declFindById did db = some d) :
    (checkForPendingRequests cid did db = true →
      createRequest did cid nid now db =
        (Except.error (ServiceError.conflict
          "You already have a pending request. Please wait for its completion before requesting again."),
         db)) ∧
    (checkForPendingRequests cid did db = false →
      createRequest did cid nid now db =
        (Except.ok (mkRequest nid now (some u) d),
         { db with requests := db.requests ++ [mkRequest nid now (some u) d] }) ∧
      (mkRequest nid now (some u) d).status = RequestStatus.pending ∧
      (mkRequest nid now (some u) d).url = none ∧
      (mkRequest nid now (some u) d).generation_date = none ∧
      (mkRequest nid now (some u) d).attendant = none) ∧
    (atMostOnePending db → atMostOnePending (createRequest did cid nid now db).2) := by
  have huid : u.id = cid := usersFindById_id cid db u hu
  have hdid : d.id = did := declFindById_id did db d hd
  have hg' : nonAdminCheckFails (usersFindById cid db) = false := by
    rw [hu]
    unfold nonAdminCheckFails
    exact hna
  have hcr_true : checkForPendingRequests cid did db = true →
      createRequest did cid nid now db =
        (Except.error (ServiceError.conflict
          "You already have a pending request. Please wait for its completion before requesting again."),
         db) := by
    intro hc
    unfold createRequest
    simp only [hg', Bool.false_eq_true, if_false, hd, hc, if_true]
  have hcr_false : checkForPendingRequests cid did db = false →
      createRequest did cid nid now db =
        (Except.ok (mkRequest nid now (some u) d),
         { db with requests := db.requests ++ [mkRequest nid now (some u) d] }) := by
    intro hc
    unfold createRequest
    simp only [hg', Bool.false_eq_true, if_false, hd, hc]
    rw [hu]
  refine ⟨hcr_true, fun hc => ⟨hcr_false hc, rfl, rfl, rfl, rfl⟩, ?_⟩
  intro hmp
  by_cases hc : checkForPendingRequests cid did db = true
  · rw [hcr_true hc]
    exact hmp
  · have hc' : checkForPendingRequests cid did db = false := by
      revert hc
      cases checkForPendingRequests cid did db <;> simp
    rw [hcr_false hc']
    have hnone : db.requests.find? (fun r =>
        r.user.map UserProfile.id == some cid &&
        r.declaration.map Declaration.id == some did &&
        r.status == RequestStatus.pending) = none := by
      revert hc'
      unfold checkForPendingRequests
      cases db.requests.find? (fun r =>
        r.user.map UserProfile.id == some cid &&
        r.declaration.map Declaration.id == some did &&
        r.status == RequestStatus.pending) with
      | none => intro _; rfl
      | some z => intro hh; cases hh
    unfold atMostOnePending at hmp ⊢
    dsimp only
    rw [List.pairwise_append]
    refine ⟨hmp, List.pairwise_singleton _ _, ?_⟩
    intro x hx y hy
    have hy' : y = mkRequest nid now (some u) d := List.mem_singleton.mp hy
    subst hy'
    intro hsame
    obtain ⟨hxp, _, hus, hds⟩ := hsame
    have hpred : (x.user.map UserProfile.id == some cid &&
        x.declaration.map Declaration.id == some did &&
        x.status == RequestStatus.pending) = true := by
      have h1 : (x.user.map UserProfile.id == some cid) = true := by
        rw [beq_iff_eq, hus]
        unfold mkRequest
        dsimp only [Option.map]
        rw [huid]
      have h2 : (x.declaration.map Declaration.id == some did) = true := by
        rw [beq_iff_eq, hds]
        unfold mkRequest
        dsimp only [Option.map]
        rw [hdid]
      have h3 : (x.status == RequestStatus.pending) = true := by
        rw [beq_iff_eq]
        exact hxp
      rw [h1, h2, h3]
      rfl
    exact (List.find?_eq_none.mp hnone x hx) hpred

/-- Second example declaration, for which no request is pending. -/
def exDecl2 : Declaration := { exDecl with id := "d2" }

/-- Example store with two declarations. -/
def exDb2 : DB := { exDb with declarations := [exDecl, exDecl2] }

/-- C6 witness: the theorem applied at a pair with no pending request, so
the creation branch fires and uniqueness is preserved. -/
theorem C6_witness :
    usersFindById "u1" exDb2 = some exUser ∧ exUser.is_admin = false ∧
    declFindById "d2" exDb2 = some exDecl2 ∧
    checkForPendingRequests "u1" "d2" exDb2 = false ∧
    (checkForPendingRequests "u1" "d2" exDb2 = false →
      createRequest "d2" "u1" "rN" 9 exDb2 =
        (Except.ok (mkRequest "rN" 9 (some exUser) exDecl2),
         { exDb2 with requests := exDb2.requests ++ [mkRequest "rN" 9 (some exUser) exDecl2] }) ∧
      (mkRequest "rN" 9 (some exUser) exDecl2).status = RequestStatus.pending ∧
      (mkRequest "rN" 9 (some exUser) exDecl2).url = none ∧
      (mkRequest "rN" 9 (some exUser) exDecl2).generation_date = none ∧
      (mkRequest "rN" 9 (some exUser) exDecl2).attendant = none) ∧
    (atMostOnePending exDb2 → atMostOnePending (createRequest "d2" "u1" "rN" 9 exDb2).2) :=
  ⟨rfl, rfl, by decide, by decide,
    (C6_createRequest_pending_unique "d2" "u1" "rN" 9 exDb2 exUser exDecl2 rfl rfl (by decide)).2.1,
    (C6_createRequest_pending_unique "d2" "u1" "rN" 9 exDb2 exUser exDecl2 rfl rfl (by decide)).2.2⟩

theorem generateItem_missing (caller : Option UserProfile) (oracle : PdfOracle)
    (dv : DateV) (db : DB) (rid : String) (h : getRequestById rid db = none) :
    generateItem caller oracle dv db rid = (none, db) := by
  unfold generateItem
  rw [h]

theorem generateItem_skip (caller : Option UserProfile) (oracle : PdfOracle)
    (dv : DateV) (db : DB) (rid : String) (q : RequestEntity)
    (hq : getRequestById rid db = some q) (hst : q.status ≠ RequestStatus.pending) :
    generateItem caller oracle dv db rid = (none, db) := by
  unfold generateItem
  rw [hq]
  dsimp only
  have hbne : (q.status != RequestStatus.pending) = true := by
    simp [bne_iff_ne, hst]
  rw [hbne]
  rfl

theorem generateItem_fail (caller : Option UserProfile) (oracle : PdfOracle)
    (dv : DateV) (db : DB) (rid : String) (q : RequestEntity)
    (hq : getRequestById rid db = some q)
    (hfail : ∀ c f, (oracle (rid ++ "_" ++ toString dv.epochMillis ++ ".pdf") c f).isOk = false) :
    generateItem caller oracle dv db rid = (none, db) := by
  unfold generateItem
  rw [hq]
  dsimp only
  cases hbne : (q.status != RequestStatus.pending) with
  | true => rfl
  | false =>
    simp only [Bool.false_eq_true, if_false]
    cases q.declaration with
    | none => rfl
    | some rd =>
      dsimp only
      cases declFindById rd.id db with
      | none => rfl
      | some decl =>
        dsimp only
        cases q.user with
        | none => rfl
        | some uu =>
          dsimp only
          cases hor : oracle (rid ++ "_" ++ toString dv.epochMillis ++ ".pdf")
              (replacePlaceholders decl.content (mkUserData uu dv))
              (replacePlaceholders decl.footer (mkUserData uu dv)) with
          | error e => rfl
          | ok su =>
            have := hfail (replacePlaceholders decl.content (mkUserData uu dv))
              (replacePlaceholders decl.footer (mkUserData uu dv))
            rw [hor] at this
            cases this

theorem generateItem_success (caller : Option UserProfile) (oracle : PdfOracle)
    (dv : DateV) (db : DB) (rid : String) (q : RequestEntity) (rd : Declaration)
    (decl : Declaration) (uu : UserProfile) (su : String)
    (hq : getRequestById rid db = some q) (hst : q.status = RequestStatus.pending)
    (hdecl : q.declaration = some rd) (hfind : declFindById rd.id db = some decl)
    (huser : q.user = some uu)
    (hor : oracle (rid ++ "_" ++ toString dv.epochMillis ++ ".pdf")
      (replacePlaceholders decl.content (mkUserData uu dv))
      (replacePlaceholders decl.footer (mkUserData uu dv)) = Except.ok su) :
    generateItem caller oracle dv db rid =
      (some { id := rid, name := uu.name, requestDate := q.createdAt,
              status := RequestStatus.processing, url := some su },
       updateGenerated rid su dv.epochMillis caller db) := by
  have hqid : q.id = rid := (getRequestById_mem rid db q hq).2
  unfold generateItem
  rw [hq]
  dsimp only
  have hbne : (q.status != RequestStatus.pending) = false := by
    simp [bne_iff_ne, hst]
  rw [hbne]
  simp only [Bool.false_eq_true, if_false]
  rw [hdecl]
  dsimp only
  rw [hfind]
  dsimp only
  rw [huser]
  dsimp only
  rw [hor]
  dsimp only
  rw [getRequestById_updateGenerated, hq]
  dsimp only [Option.map]
  have hif : (q.id == rid) = true := beq_iff_eq.mpr hqid
  rw [if_pos hif]
  dsimp only
  rw [huser]

theorem generateItem_some (caller : Option UserProfile) (oracle : PdfOracle)
    (dv : DateV) (db : DB) (rid : String) (v : FormatRequest) (db2 : DB)
    (h : generateItem caller oracle dv db rid = (some v, db2)) :
    v.status = RequestStatus.processing ∧ v.url.isSome = true ∧ v.id = rid ∧
    ∃ su, db2 = updateGenerated rid su dv.epochMillis caller db := by
  unfold generateItem at h
  cases hq : getRequestById rid db with
  | none =>
    rw [hq] at h
    cases h
  | some q =>
    rw [hq] at h
    dsimp only at h
    have hqid : q.id = rid := (getRequestById_mem rid db q hq).2
    cases hbne : (q.status != RequestStatus.pending) with
    | true =>
      rw [hbne] at h
      cases h
    | false =>
      rw [hbne] at h
      simp only [Bool.false_eq_true, if_false] at h
      cases hdecl : q.declaration with
      | none =>
        rw [hdecl] at h
        cases h
      | some rd =>
        rw [hdecl] at h
        dsimp only at h
        cases hfind : declFindById rd.id db with
        | none =>
          rw [hfind] at h
          cases h
        | some decl =>
          rw [hfind] at h
          dsimp only at h
          cases huser : q.user with
          | none =>
            rw [huser] at h
            cases h
          | some uu =>
            rw [huser] at h
            dsimp only at h
            cases hor : oracle (rid ++ "_" ++ toString dv.epochMillis ++ ".pdf")
                (replacePlaceholders decl.content (mkUserData uu dv))
                (replacePlaceholders decl.footer (mkUserData uu dv)) with
            | error e =>
              rw [hor] at h
              cases h
            | ok su =>
              rw [hor] at h
              dsimp only at h
              rw [getRequestById_updateGenerated, hq] at h
              dsimp only [Option.map] at h
              have hif : (q.id == rid) = true := beq_iff_eq.mpr hqid
              rw [if_pos hif] at h
              dsimp only at h
              rw [huser] at h
              dsimp only at h
              cases h
              exact ⟨rfl, rfl, rfl, su, rfl⟩

theorem generateItem_none (caller : Option UserProfile) (oracle : PdfOracle)
    (dv : DateV) (db : DB) (rid : String) (db2 : DB)
    (h : generateItem caller oracle dv db rid = (none, db2)) : db2 = db := by
  unfold generateItem at h
  cases hq : getRequestById rid db with
  | none =>
    rw [hq] at h
    cases h
    rfl
  | some q =>
    rw [hq] at h
    dsimp only at h
    have hqid : q.id = rid := (getRequestById_mem rid db q hq).2
    cases hbne : (q.status != RequestStatus.pending) with
    | true =>
      rw [hbne] at h
      cases h
      rfl
    | false =>
      rw [hbne] at h
      simp only [Bool.false_eq_true, if_false] at h
      cases hdecl : q.declaration with
      | none =>
        rw [hdecl] at h
        cases h
        rfl
      | some rd =>
        rw [hdecl] at h
        dsimp only at h
        cases hfind : declFindById rd.id db with
        | none =>
          rw [hfind] at h
          cases h
          rfl
        | some decl =>
          rw [hfind] at h
          dsimp only at h
          cases huser : q.user with
          | none =>
            rw [huser] at h
            cases h
            rfl
          | some uu =>
            rw [huser] at h
            dsimp only at h
            cases hor : oracle (rid ++ "_" ++ toString dv.epochMillis ++ ".pdf")
                (replacePlaceholders decl.content (mkUserData uu dv))
                (replacePlaceholders decl.footer (mkUserData uu dv)) with
            | error e =>
              rw [hor] at h
              cases h
              rfl
            | ok su =>
              rw [hor] at h
              dsimp only at h
              rw [getRequestById_updateGenerated, hq] at h
              dsimp only [Option.map] at h
              have hif : (q.id == rid) = true := beq_iff_eq.mpr hqid
              rw [if_pos hif] at h
              dsimp only at h
              rw [huser] at h
              dsimp only at h
              cases h

theorem generateItem_map_id (caller : Option UserProfile) (oracle : PdfOracle)
    (dv : DateV) (db : DB) (rid : String) :
    (generateItem caller oracle dv db rid).2.requests.map RequestEntity.id =
      db.requests.map RequestEntity.id := by
  cases hitem : generateItem caller oracle dv db rid with
  | mk ov db2 =>
    cases ov with
    | some v =>
      rcases (generateItem_some caller oracle dv db rid v db2 hitem).2.2.2 with ⟨su, rfl⟩
      exact updateGenerated_map_id rid su dv.epochMillis caller db
    | none =>
      rw [generateItem_none caller oracle dv db rid db2 hitem]

theorem generateItem_decls (caller : Option UserProfile) (oracle : PdfOracle)
    (dv : DateV) (db : DB) (rid : String) :
    (generateItem caller oracle dv db rid).2.declarations = db.declarations := by
  cases hitem : generateItem caller oracle dv db rid with
  | mk ov db2 =>
    cases ov with
    | some v =>
      rcases (generateItem_some caller oracle dv db rid v db2 hitem).2.2.2 with ⟨su, rfl⟩
      rfl
    | none =>
      rw [generateItem_none caller oracle dv db rid db2 hitem]

theorem generateItem_mem_of_ne (caller : Option UserProfile) (oracle : PdfOracle)
    (dv : DateV) (db : DB) (rid : String) (q : RequestEntity)
    (hq : q ∈ db.requests) (hne : q.id ≠ rid) :
    q ∈ (generateItem caller oracle dv db rid).2.requests := by
  cases hitem : generateItem caller oracle dv db rid with
  | mk ov db2 =>
    cases ov with
    | some v =>
      rcases (generateItem_some caller oracle dv db rid v db2 hitem).2.2.2 with ⟨su, rfl⟩
      exact mem_updateGenerated_of_ne rid su dv.epochMillis caller db q hq hne
    | none =>
      rw [generateItem_none caller oracle dv db rid db2 hitem]
      exact hq

theorem generateItem_nodup (caller : Option UserProfile) (oracle : PdfOracle)
    (dv : DateV) (db : DB) (rid : String) (h : idsNodup db) :
    idsNodup (generateItem caller oracle dv db rid).2 := by
  unfold idsNodup
  rw [generateItem_map_id]
  exact h

theorem generateLoop_nonpending (caller : Option UserProfile) (oracle : PdfOracle)
    (dv : DateV) (ids : List String) :
    ∀ (db : DB) (q : RequestEntity), idsNodup db → q ∈ db.requests →
      q.status ≠ RequestStatus.pending →
      q ∈ (generateLoop caller oracle dv ids db).2.requests ∧
      idAbsent q.id (generateLoop caller oracle dv ids db).1 := by
  induction ids with
  | nil =>
    intro db q _ hq _
    exact ⟨hq, fun v hv => absurd hv (List.not_mem_nil v)⟩
  | cons i rest ih =>
    intro db q hnd hq hst
    unfold generateLoop
    by_cases hid : i = q.id
    · have hlook : getRequestById i db = some q := by
        rw [hid]
        exact getRequestById_of_mem db hnd q hq
      rw [generateItem_skip caller oracle dv db i q hlook hst]
      exact ih db q hnd hq hst
    · cases hitem : generateItem caller oracle dv db i with
      | mk ov db2 =>
        cases ov with
        | none =>
          have hdb : db2 = db := generateItem_none caller oracle dv db i db2 hitem
          rw [hdb]
          exact ih db q hnd hq hst
        | some v =>
          obtain ⟨_, _, hvid, su, rfl⟩ := generateItem_some caller oracle dv db i v db2 hitem
          have hne2 : q.id ≠ i := fun he => hid he.symm
          have hq2 : q ∈ (updateGenerated i su dv.epochMillis caller db).requests :=
            mem_updateGenerated_of_ne i su dv.epochMillis caller db q hq hne2
          have hnd2 : idsNodup (updateGenerated i su dv.epochMillis caller db) :=
            idsNodup_updateGenerated i su dv.epochMillis caller db hnd
          have hrec := ih (updateGenerated i su dv.epochMillis caller db) q hnd2 hq2 hst
          refine ⟨hrec.1, ?_⟩
          intro v' hv'
          rcases List.mem_cons.mp hv' with hv' | hv'
          · subst hv'
            rw [hvid]
            exact hid
          · exact hrec.2 v' hv'

theorem generateLoop_map_id (caller : Option UserProfile) (oracle : PdfOracle)
    (dv : DateV) (ids : List String) :
    ∀ db : DB, (generateLoop caller oracle dv ids db).2.requests.map RequestEntity.id =
      db.requests.map RequestEntity.id := by
  induction ids with
  | nil =>
    intro db
    rfl
  | cons i rest ih =>
    intro db
    unfold generateLoop
    cases hitem : generateItem caller oracle dv db i with
    | mk ov db2 =>
      have hmap : db2.requests.map RequestEntity.id = db.requests.map RequestEntity.id := by
        have := generateItem_map_id caller oracle dv db i
        rw [hitem] at this
        exact this
      cases ov with
      | some v =>
        dsimp only
        rw [ih db2, hmap]
      | none =>
        rw [ih db2, hmap]

theorem generateLoop_decls (caller : Option UserProfile) (oracle : PdfOracle)
    (dv : DateV) (ids : List String) :
    ∀ db : DB, (generateLoop caller oracle dv ids db).2.declarations = db.declarations := by
  induction ids with
  | nil =>
    intro db
    rfl
  | cons i rest ih =>
    intro db
    unfold generateLoop
    cases hitem : generateItem caller oracle dv db i with
    | mk ov db2 =>
      have hdecl : db2.declarations = db.declarations := by
        have := generateItem_decls caller oracle dv db i
        rw [hitem] at this
        exact this
      cases ov with
      | some v =>
        dsimp only
        rw [ih db2, hdecl]
      | none =>
        rw [ih db2, hdecl]

theorem generateLoop_missing (caller : Option UserProfile) (oracle : PdfOracle)
    (dv : DateV) (ids : List String) :
    ∀ (db : DB) (i : String), i ∉ db.requests.map RequestEntity.id →
      idAbsent i (generateLoop caller oracle dv ids db).1 := by
  induction ids with
  | nil =>
    intro db i _
    exact fun v hv => absurd hv (List.not_mem_nil v)
  | cons j rest ih =>
    intro db i hmiss
    unfold generateLoop
    by_cases hj : j = i
    · have hmissj : j ∉ db.requests.map RequestEntity.id := by
        rw [hj]
        exact hmiss
      rw [generateItem_missing caller oracle dv db j (getRequestById_none_of_not_mem j db hmissj)]
      exact ih db i hmiss
    · cases hitem : generateItem caller oracle dv db j with
      | mk ov db2 =>
        have hmiss2 : i ∉ db2.requests.map RequestEntity.id := by
          have := generateItem_map_id caller oracle dv db j
          rw [hitem] at this
          rw [this]
          exact hmiss
        cases ov with
        | some v =>
          obtain ⟨_, _, hvid, _, _⟩ := generateItem_some caller oracle dv db j v db2 hitem
          intro v' hv'
          rcases List.mem_cons.mp hv' with hv' | hv'
          · subst hv'
            rw [hvid]
            exact hj
          · exact ih db2 i hmiss2 v' hv'
        | none =>
          exact ih db2 i hmiss2

theorem generateLoop_views (caller : Option UserProfile) (oracle : PdfOracle)
    (dv : DateV) (ids : List String) :
    ∀ db : DB, ∀ v ∈ (generateLoop caller oracle dv ids db).1,
      v.status = RequestStatus.processing ∧ v.url.isSome = true ∧ v.id ∈ ids := by
  induction ids with
  | nil =>
    intro db v hv
    exact absurd hv (List.not_mem_nil v)
  | cons i rest ih =>
    intro db v hv
    unfold generateLoop at hv
    cases hitem : generateItem caller oracle dv db i with
    | mk ov db2 =>
      rw [hitem] at hv
      cases ov with
      | some v0 =>
        dsimp only at hv
        obtain ⟨hst, hurl, hvid, _, _⟩ := generateItem_some caller oracle dv db i v0 db2 hitem
        rcases List.mem_cons.mp hv with hv | hv
        · subst hv
          exact ⟨hst, hurl, by rw [hvid]; exact List.mem_cons_self i rest⟩
        · have := ih db2 v hv
          exact ⟨this.1, this.2.1, List.mem_cons_of_mem i this.2.2⟩
      | none =>
        have := ih db2 v hv
        exact ⟨this.1, this.2.1, List.mem_cons_of_mem i this.2.2⟩

theorem generateLoop_success_included (caller : Option UserProfile) (oracle : PdfOracle)
    (dv : DateV) (ids : List String) :
    ∀ (db : DB) (q : RequestEntity) (rd : Declaration) (decl : Declaration) (uu : UserProfile),
      idsNodup db → q ∈ db.requests → q.status = RequestStatus.pending →
      q.id ∈ ids → q.declaration = some rd → declFindById rd.id db = some decl →
      q.user = some uu → (∀ fn c f, (oracle fn c f).isOk = true) →
      idWithStatus q.id RequestStatus.processing (generateLoop caller oracle dv ids db).1 := by
  induction ids with
  | nil =>
    intro db q rd decl uu _ _ _ hmem _ _ _ _
    exact absurd hmem (List.not_mem_nil q.id)
  | cons i rest ih =>
    intro db q rd decl uu hnd hq hst hmem hdecl hfind huser hok
    unfold generateLoop
    by_cases hid : i = q.id
    · have hlook : getRequestById i db = some q := by
        rw [hid]
        exact getRequestById_of_mem db hnd q hq
      have hsu : ∃ su, oracle (i ++ "_" ++ toString dv.epochMillis ++ ".pdf")
          (replacePlaceholders decl.content (mkUserData uu dv))
          (replacePlaceholders decl.footer (mkUserData uu dv)) = Except.ok su := by
        cases hr : oracle (i ++ "_" ++ toString dv.epochMillis ++ ".pdf")
            (replacePlaceholders decl.content (mkUserData uu dv))
            (replacePlaceholders decl.footer (mkUserData uu dv)) with
        | error e =>
          have := hok (i ++ "_" ++ toString dv.epochMillis ++ ".pdf")
            (replacePlaceholders decl.content (mkUserData uu dv))
            (replacePlaceholders decl.footer (mkUserData uu dv))
          rw [hr] at this
          cases this
        | ok su => exact ⟨su, rfl⟩
      rcases hsu with ⟨su, hor⟩
      rw [generateItem_success caller oracle dv db i q rd decl uu su hlook hst hdecl hfind huser hor]
      exact ⟨{ id := i, name := uu.name, requestDate := q.createdAt,
               status := RequestStatus.processing, url := some su },
             List.mem_cons_self _ _, hid, rfl⟩
    · cases hitem : generateItem caller oracle dv db i with
      | mk ov db2 =>
        have hmem' : q.id ∈ rest := by
          rcases List.mem_cons.mp hmem with hh | hh
          · exact absurd hh.symm hid
          · exact hh
        cases ov with
        | some v =>
          obtain ⟨_, _, hvid, su, rfl⟩ := generateItem_some caller oracle dv db i v db2 hitem
          have hne2 : q.id ≠ i := fun he => hid he.symm
          have hq2 : q ∈ (updateGenerated i su dv.epochMillis caller db).requests :=
            mem_updateGenerated_of_ne i su dv.epochMillis caller db q hq hne2
          have hnd2 := idsNodup_updateGenerated i su dv.epochMillis caller db hnd
          have hfind2 : declFindById rd.id (updateGenerated i su dv.epochMillis caller db) =
              some decl := hfind
          have hrec := ih (updateGenerated i su dv.epochMillis caller db) q rd decl uu hnd2 hq2
            hst hmem' hdecl hfind2 huser hok
          rcases hrec with ⟨v', hv', hvid', hvst'⟩
          exact ⟨v', List.mem_cons_of_mem _ hv', hvid', hvst'⟩
        | none =>
          have hdb : db2 = db := generateItem_none caller oracle dv db i db2 hitem
          rw [hdb]
          exact ih db q rd decl uu hnd hq hst hmem' hdecl hfind huser hok

/-- C5 (confirmed): for an admin caller, `generatePdf` processes batch items
independently: it never throws (one item's failure cannot abort the batch),
a request that is missing or not PENDING is skipped with no mutation and
stays out of the returned list, every returned view is a successfully
processed request now in PROCESSING with a non-null url and an id from the
batch, a PENDING request whose collaborators and publish succeed does appear
in the list, and for a batch of one PENDING and one COMPLETED id the result
is exactly one entry while the COMPLETED request is untouched. -/
theorem C5_generate_batch_isolated (cid : String) (dto : GeneratePdfDto)
    (oracle : PdfOracle) (dv : DateV) (db : DB) (adm : UserProfile)
    (hadm : usersFindById cid db = some adm) (hA : adm.is_admin = true)
    (hnd : idsNodup db) :
    isOkE (generatePdf cid dto oracle dv db).1 = true ∧
    (∀ q ∈ db.requests, q.status ≠ RequestStatus.pending →
      q ∈ (generatePdf cid dto oracle dv db).2.requests ∧
      idAbsent q.id (resViews (generatePdf cid dto oracle dv db))) ∧
    (∀ i, i ∉ db.requests.map RequestEntity.id →
      idAbsent i (resViews (generatePdf cid dto oracle dv db))) ∧
    (∀ v ∈ resViews (generatePdf cid dto oracle dv db),
      v.status = RequestStatus.processing ∧ v.url.isSome = true ∧
      v.id ∈ dto.requestIds) ∧
    (∀ q ∈ db.requests, ∀ rd decl uu, q.status = RequestStatus.pending →
      q.id ∈ dto.requestIds → q.declaration = some rd →
      declFindById rd.id db = some decl → q.user = some uu →
      (∀ fn c f, (oracle fn c f).isOk = true) →
      idWithStatus q.id RequestStatus.processing
        (resViews (generatePdf cid dto oracle dv db))) ∧
    (∀ i1 i2 q1 q2 rd1 decl1 uu1 su1, dto.requestIds = [i1, i2] →
      getRequestById i1 db = some q1 → q1.status = RequestStatus.pending →
      q1.declaration = some rd1 → declFindById rd1.id db = some decl1 →
      q1.user = some uu1 →
      oracle (i1 ++ "_" ++ toString dv.epochMillis ++ ".pdf")
        (replacePlaceholders decl1.content (mkUserData uu1 dv))
        (replacePlaceholders decl1.footer (mkUserData uu1 dv)) = Except.ok su1 →
      getRequestById i2 db = some q2 → q2.status = RequestStatus.completed →
      resViews (generatePdf cid dto oracle dv db) =
        [{ id := i1, name := uu1.name, requestDate := q1.createdAt,
           status := RequestStatus.processing, url := some su1 }] ∧
      q2 ∈ (generatePdf cid dto oracle dv db).2.requests) := by
  have hpass : adminCheckFails (usersFindById cid db) = false := by
    rw [hadm]
    show (!adm.is_admin) = false
    rw [hA]
    rfl
  have hgen : generatePdf cid dto oracle dv db =
      (Except.ok (generateLoop (usersFindById cid db) oracle dv dto.requestIds db).1,
       (generateLoop (usersFindById cid db) oracle dv dto.requestIds db).2) := by
    unfold generatePdf
    simp only [hpass, Bool.false_eq_true, if_false]
  refine ⟨?_, ?_, ?_, ?_, ?_, ?_⟩
  · rw [hgen]
    rfl
  · intro q hq hst
    rw [hgen]
    exact generateLoop_nonpending (usersFindById cid db) oracle dv dto.requestIds db q hnd hq hst
  · intro i hi
    rw [hgen]
    exact generateLoop_missing (usersFindById cid db) oracle dv dto.requestIds db i hi
  · intro v hv
    rw [hgen] at hv
    exact generateLoop_views (usersFindById cid db) oracle dv dto.requestIds db v hv
  · intro q hq rd decl uu hst hmem hdecl hfind huser hok
    rw [hgen]
    exact generateLoop_success_included (usersFindById cid db) oracle dv dto.requestIds db q
      rd decl uu hnd hq hst hmem hdecl hfind huser hok
  · intro i1 i2 q1 q2 rd1 decl1 uu1 su1 hids hq1 hst1 hdecl1 hfind1 huser1 hor1 hq2 hst2
    have hne12 : i2 ≠ i1 := by
      intro he
      rw [he] at hq2
      rw [hq1] at hq2
      cases hq2
      rw [hst1] at hst2
      cases hst2
    have hq2mem := getRequestById_mem i2 db q2 hq2
    have hitem1 := generateItem_success (usersFindById cid db) oracle dv db i1 q1 rd1 decl1
      uu1 su1 hq1 hst1 hdecl1 hfind1 huser1 hor1
    have hq2' : getRequestById i2 (updateGenerated i1 su1 dv.epochMillis
        (usersFindById cid db) db) = some q2 := by
      rw [getRequestById_updateGenerated, hq2]
      dsimp only [Option.map]
      have hq2ne : (q2.id == i1) = false := by
        rw [beq_eq_false_iff_ne, hq2mem.2]
        exact hne12
      rw [hq2ne]
      rfl
    have hitem2 := generateItem_skip (usersFindById cid db) oracle dv
      (updateGenerated i1 su1 dv.epochMillis (usersFindById cid db) db) i2 q2 hq2'
      (by rw [hst2]; intro hh; cases hh)
    have hloop : generateLoop (usersFindById cid db) oracle dv [i1, i2] db =
        ([{ id := i1, name := uu1.name, requestDate := q1.createdAt,
            status := RequestStatus.processing, url := some su1 }],
         updateGenerated i1 su1 dv.epochMillis (usersFindById cid db) db) := by
      unfold generateLoop
      rw [hitem1]
      dsimp only
      unfold generateLoop
      rw [hitem2]
      rfl
    rw [hgen, hids]
    constructor
    · unfold resViews
      dsimp only
      rw [hloop]
    · dsimp only
      rw [hloop]
      exact mem_updateGenerated_of_ne i1 su1 dv.epochMillis (usersFindById cid db) db q2
        hq2mem.1 (by rw [hq2mem.2]; exact hne12)

/-- C5 witness: the theorem applied to the admin, one PENDING and one
COMPLETED id, and an always-succeeding render/publish oracle. -/
theorem C5_witness :
    usersFindById "a1" exDb = some exAdmin ∧ exAdmin.is_admin = true ∧ idsNodup exDb ∧
    isOkE (generatePdf "a1" ⟨["r1", "r2"]⟩ (fun _ _ _ => Except.ok "http://s")
      ⟨1, 1, 2026, 7⟩ exDb).1 = true ∧
    resViews (generatePdf "a1" ⟨["r1", "r2"]⟩ (fun _ _ _ => Except.ok "http://s")
      ⟨1, 1, 2026, 7⟩ exDb) =
      [{ id := "r1", name := exUser.name, requestDate := exReqPending.createdAt,
         status := RequestStatus.processing, url := some "http://s" }] ∧
    exReqCompleted ∈ (generatePdf "a1" ⟨["r1", "r2"]⟩ (fun _ _ _ => Except.ok "http://s")
      ⟨1, 1, 2026, 7⟩ exDb).2.requests := by
  have h := C5_generate_batch_isolated "a1" ⟨["r1", "r2"]⟩
    (fun _ _ _ => Except.ok "http://s") ⟨1, 1, 2026, 7⟩ exDb exAdmin rfl rfl (by decide)
  have hs := h.2.2.2.2.2 "r1" "r2" exReqPending exReqCompleted exDecl exDecl exUser
    "http://s" rfl (by decide) rfl rfl (by decide) rfl rfl (by decide) rfl
  exact ⟨rfl, rfl, by decide, h.1, hs.1, hs.2⟩

theorem generateLoop_failed_item (caller : Option UserProfile) (oracle : PdfOracle)
    (dv : DateV) (ids : List String) :
    ∀ (db : DB) (q : RequestEntity), idsNodup db → q ∈ db.requests →
      (∀ c f, (oracle (q.id ++ "_" ++ toString dv.epochMillis ++ ".pdf") c f).isOk = false) →
      q ∈ (generateLoop caller oracle dv ids db).2.requests ∧
      idAbsent q.id (generateLoop caller oracle dv ids db).1 := by
  induction ids with
  | nil =>
    intro db q _ hq _
    exact ⟨hq, fun v hv => absurd hv (List.not_mem_nil v)⟩
  | cons i rest ih =>
    intro db q hnd hq hfail
    unfold generateLoop
    by_cases hid : i = q.id
    · have hlook : getRequestById i db = some q := by
        rw [hid]
        exact getRequestById_of_mem db hnd q hq
      have hfail' : ∀ c f, (oracle (i ++ "_" ++ toString dv.epochMillis ++ ".pdf") c f).isOk
          = false := by
        rw [hid]
        exact hfail
      rw [generateItem_fail caller oracle dv db i q hlook hfail']
      exact ih db q hnd hq hfail
    · cases hitem : generateItem caller oracle dv db i with
      | mk ov db2 =>
        cases ov with
        | none =>
          have hdb : db2 = db := generateItem_none caller oracle dv db i db2 hitem
          rw [hdb]
          exact ih db q hnd hq hfail
        | some v =>
          obtain ⟨_, _, hvid, su, rfl⟩ := generateItem_some caller oracle dv db i v db2 hitem
          have hne2 : q.id ≠ i := fun he => hid he.symm
          have hq2 : q ∈ (updateGenerated i su dv.epochMillis caller db).requests :=
            mem_updateGenerated_of_ne i su dv.epochMillis caller db q hq hne2
          have hnd2 := idsNodup_updateGenerated i su dv.epochMillis caller db hnd
          have hrec := ih (updateGenerated i su dv.epochMillis caller db) q hnd2 hq2 hfail
          refine ⟨hrec.1, ?_⟩
          intro v' hv'
          rcases List.mem_cons.mp hv' with hv' | hv'
          · subst hv'
            rw [hvid]
            exact hid
          · exact hrec.2 v' hv'

/-- C7 (confirmed): for an admin caller, when rendering or publishing fails
for a request's file (the oracle returns an error before the persistence
update), the stored request is unchanged - still the same PENDING row with
null url, generation timestamp and attendant - the batch call still returns
normally, and that request is absent from the returned list. -/
theorem C7_failed_generation_leaves_request_untouched (cid : String)
    (dto : GeneratePdfDto) (oracle : PdfOracle) (dv : DateV) (db : DB)
    (adm : UserProfile) (q : RequestEntity)
    (hadm : usersFindById cid db = some adm) (hA : adm.is_admin = true)
    (hnd : idsNodup db) (hq : q ∈ db.requests)
    (hst : q.status = RequestStatus.pending) (hurl : q.url = none)
    (hgen : q.generation_date = none) (hatt : q.attendant = none)
    (hfail : ∀ c f, (oracle (q.id ++ "_" ++ toString dv.epochMillis ++ ".pdf") c f).isOk
      = false) :
    isOkE (generatePdf cid dto oracle dv db).1 = true ∧
    getRequestById q.id (generatePdf cid dto oracle dv db).2 = some q ∧
    q.status = RequestStatus.pending ∧ q.url = none ∧ q.generation_date = none ∧
    q.attendant = none ∧
    idAbsent q.id (resViews (generatePdf cid dto oracle dv db)) := by
  have hpass : adminCheckFails (usersFindById cid db) = false := by
    rw [hadm]
    show (!adm.is_admin) = false
    rw [hA]
    rfl
  have hgenp : generatePdf cid dto oracle dv db =
      (Except.ok (generateLoop (usersFindById cid db) oracle dv dto.requestIds db).1,
       (generateLoop (usersFindById cid db) oracle dv dto.requestIds db).2) := by
    unfold generatePdf
    simp only [hpass, Bool.false_eq_true, if_false]
  have hmain := generateLoop_failed_item (usersFindById cid db) oracle dv dto.requestIds db q
    hnd hq hfail
  have hndf : idsNodup (generateLoop (usersFindById cid db) oracle dv dto.requestIds db).2 := by
    unfold idsNodup
    rw [generateLoop_map_id]
    exact hnd
  refine ⟨?_, ?_, hst, hurl, hgen, hatt, ?_⟩
  · rw [hgenp]
    rfl
  · rw [hgenp]
    exact getRequestById_of_mem _ hndf q hmain.1
  · rw [hgenp]
    exact hmain.2

/-- C7 witness: the theorem applied to the admin, the PENDING request `r1`
and an always-failing oracle. -/
theorem C7_witness :
    usersFindById "a1" exDb = some exAdmin ∧ exAdmin.is_admin = true ∧ idsNodup exDb ∧
    exReqPending ∈ exDb.requests ∧
    isOkE (generatePdf "a1" ⟨["r1", "r2"]⟩ (fun _ _ _ => Except.error "render failed")
      ⟨1, 1, 2026, 7⟩ exDb).1 = true ∧
    getRequestById "r1" (generatePdf "a1" ⟨["r1", "r2"]⟩
      (fun _ _ _ => Except.error "render failed") ⟨1, 1, 2026, 7⟩ exDb).2 =
      some exReqPending ∧
    idAbsent "r1" (resViews (generatePdf "a1" ⟨["r1", "r2"]⟩
      (fun _ _ _ => Except.error "render failed") ⟨1, 1, 2026, 7⟩ exDb)) := by
  have h := C7_failed_generation_leaves_request_untouched "a1" ⟨["r1", "r2"]⟩
    (fun _ _ _ => Except.error "render failed") ⟨1, 1, 2026, 7⟩ exDb exAdmin exReqPending
    rfl rfl (by decide) (by decide) rfl rfl rfl rfl (fun _ _ => rfl)
  exact ⟨rfl, rfl, by decide, by decide, h.1, h.2.1, h.2.2.2.2.2.2⟩

theorem usf_lookup_found (i : String) (st : RequestStatus) (db : DB) (q : RequestEntity)
    (hq : getRequestById i db = some q) :
    getRequestById i (updateStatusField i st db) = some { q with status := st } := by
  rw [getRequestById_updateStatusField, hq]
  dsimp only [Option.map]
  rw [if_pos (beq_iff_eq.mpr (getRequestById_mem i db q hq).2)]

theorem usf_lookup_other (j i : String) (st : RequestStatus) (db : DB) (q : RequestEntity)
    (hq : getRequestById j db = some q) (hne : q.id ≠ i) :
    getRequestById j (updateStatusField i st db) = some q := by
  rw [getRequestById_updateStatusField, hq]
  dsimp only [Option.map]
  have hb : (q.id == i) = false := by
    rw [beq_eq_false_iff_ne]
    exact hne
  rw [hb]
  rfl

theorem allIdsExist_tail (i : String) (rest : List String) (db : DB)
    (h : allIdsExist (i :: rest) db) : allIdsExist rest db :=
  fun j hj => h j (List.mem_cons_of_mem i hj)

theorem allIdsExist_updateStatusField (ids : List String) (rid : String)
    (st : RequestStatus) (db : DB) (h : allIdsExist ids db) :
    allIdsExist ids (updateStatusField rid st db) :=
  allIdsExist_of_map_id_eq ids db (updateStatusField rid st db)
    (updateStatusField_map_id rid st db) h

theorem usl_ok (target : RequestStatus) (ids : List String) :
    ∀ db : DB, allIdsExist ids db → allUsersLoaded db →
      ∃ vs db3, updateStatusLoop target ids db = (Except.ok vs, db3) := by
  induction ids with
  | nil =>
    intro db _ _
    exact ⟨[], db, rfl⟩
  | cons i rest ih =>
    intro db hex husers
    rcases hex i (List.mem_cons_self i rest) with ⟨r, hr, hrid⟩
    rcases getRequestById_isSome i db r hr hrid with ⟨p, hp, hpmem, hpid⟩
    unfold updateStatusLoop
    rw [hp]
    dsimp only
    by_cases hsk : skipCond p.status target = true
    · simp only [hsk, if_true]
      exact ih db (allIdsExist_tail i rest db hex) husers
    · have hsk' : skipCond p.status target = false := by
        revert hsk
        cases skipCond p.status target <;> simp
      simp only [hsk', Bool.false_eq_true, if_false]
      rw [usf_lookup_found i target db p hp]
      dsimp only
      rcases Option.isSome_iff_exists.mp (husers p hpmem) with ⟨u, hu⟩
      rw [hu]
      dsimp only
      rcases ih (updateStatusField i target db)
        (allIdsExist_updateStatusField rest i target db (allIdsExist_tail i rest db hex))
        (allUsersLoaded_updateStatusField i target db husers) with ⟨vs, db3, hrec⟩
      rw [hrec]
      exact ⟨_, db3, rfl⟩

theorem usl_map_id (target : RequestStatus) (ids : List String) :
    ∀ db : DB, (updateStatusLoop target ids db).2.requests.map RequestEntity.id =
      db.requests.map RequestEntity.id := by
  induction ids with
  | nil =>
    intro db
    rfl
  | cons i rest ih =>
    intro db
    unfold updateStatusLoop
    cases hp : getRequestById i db with
    | none => rfl
    | some p =>
      dsimp only
      by_cases hsk : skipCond p.status target = true
      · simp only [hsk, if_true]
        exact ih db
      · have hsk' : skipCond p.status target = false := by
          revert hsk
          cases skipCond p.status target <;> simp
        simp only [hsk', Bool.false_eq_true, if_false]
        have hmap2 := updateStatusField_map_id i target db
        cases h3 : getRequestById i (updateStatusField i target db) with
        | none =>
          dsimp only
          exact hmap2
        | some upd =>
          dsimp only
          cases h4 : upd.user with
          | none => exact hmap2
          | some u =>
            dsimp only
            have hrec := ih (updateStatusField i target db)
            cases h6 : updateStatusLoop target rest (updateStatusField i target db) with
            | mk res db3 =>
              rw [h6] at hrec
              cases res with
              | ok vs =>
                dsimp only
                rw [hrec]
                exact hmap2
              | error e =>
                dsimp only
                rw [hrec]
                exact hmap2

theorem usl_skip_stable (target : RequestStatus) (ids : List String) :
    ∀ (db : DB) (q : RequestEntity), idsNodup db → q ∈ db.requests →
      skipCond q.status target = true →
      q ∈ (updateStatusLoop target ids db).2.requests ∧
      idAbsent q.id (resViews (updateStatusLoop target ids db)) := by
  induction ids with
  | nil =>
    intro db q _ hq _
    exact ⟨hq, fun v hv => absurd hv (List.not_mem_nil v)⟩
  | cons i rest ih =>
    intro db q hnd hq hskip
    unfold updateStatusLoop
    by_cases hid : i = q.id
    · have hlook : getRequestById i db = some q := by
        rw [hid]
        exact getRequestById_of_mem db hnd q hq
      rw [hlook]
      dsimp only
      simp only [hskip, if_true]
      exact ih db q hnd hq hskip
    · cases hp : getRequestById i db with
      | none =>
        exact ⟨hq, fun v hv => absurd hv (List.not_mem_nil v)⟩
      | some p =>
        dsimp only
        have hpmem := getRequestById_mem i db p hp
        by_cases hsk : skipCond p.status target = true
        · simp only [hsk, if_true]
          exact ih db q hnd hq hskip
        · have hsk' : skipCond p.status target = false := by
            revert hsk
            cases skipCond p.status target <;> simp
          simp only [hsk', Bool.false_eq_true, if_false]
          have hqne : q.id ≠ i := fun he => hid he.symm
          have hq2 : q ∈ (updateStatusField i target db).requests :=
            mem_updateStatusField_of_ne i target db q hq hqne
          have hnd2 : idsNodup (updateStatusField i target db) :=
            idsNodup_updateStatusField i target db hnd
          have hrec := ih (updateStatusField i target db) q hnd2 hq2 hskip
          cases h3 : getRequestById i (updateStatusField i target db) with
          | none =>
            dsimp only
            exact ⟨hq2, fun v hv => absurd hv (List.not_mem_nil v)⟩
          | some upd =>
            dsimp only
            cases h4 : upd.user with
            | none =>
              exact ⟨hq2, fun v hv => absurd hv (List.not_mem_nil v)⟩
            | some u =>
              dsimp only
              cases h6 : updateStatusLoop target rest (updateStatusField i target db) with
              | mk res db3 =>
                rw [h6] at hrec
                cases res with
                | ok vs =>
                  dsimp only
                  refine ⟨hrec.1, ?_⟩
                  intro v hv
                  rcases List.mem_cons.mp hv with hv | hv
                  · subst hv
                    dsimp only
                    intro he
                    exact hid he
                  · exact hrec.2 v hv
                | error e =>
                  dsimp only
                  exact ⟨hrec.1, fun v hv => absurd hv (List.not_mem_nil v)⟩

theorem usl_fixed (target : RequestStatus) (ids : List String) :
    ∀ (db : DB) (q : RequestEntity), idsNodup db → q ∈ db.requests →
      q.status = target → q ∈ (updateStatusLoop target ids db).2.requests := by
  induction ids with
  | nil =>
    intro db q _ hq _
    exact hq
  | cons i rest ih =>
    intro db q hnd hq hst
    unfold updateStatusLoop
    by_cases hid : i = q.id
    · have hlook : getRequestById i db = some q := by
        rw [hid]
        exact getRequestById_of_mem db hnd q hq
      rw [hlook]
      dsimp only
      by_cases hsk : skipCond q.status target = true
      · simp only [hsk, if_true]
        exact ih db q hnd hq hst
      · have hsk' : skipCond q.status target = false := by
          revert hsk
          cases skipCond q.status target <;> simp
        simp only [hsk', Bool.false_eq_true, if_false]
        have hfq : ({ q with status := target }) = q := by
          rw [← hst]
        have hq2 : q ∈ (updateStatusField i target db).requests := by
          unfold updateStatusField
          have h2 : (if q.id == i then { q with status := target } else q) = q := by
            rw [if_pos (beq_iff_eq.mpr hid.symm)]
            exact hfq
          exact h2 ▸ List.mem_map_of_mem _ hq
        have hnd2 : idsNodup (updateStatusField i target db) :=
          idsNodup_updateStatusField i target db hnd
        have hlook2 : getRequestById i (updateStatusField i target db) = some q := by
          rw [usf_lookup_found i target db q hlook]
          rw [hfq]
        rw [hlook2]
        dsimp only
        cases hqu : q.user with
        | none => exact hq2
        | some u =>
          dsimp only
          have hrec := ih (updateStatusField i target db) q hnd2 hq2 hst
          cases h6 : updateStatusLoop target rest (updateStatusField i target db) with
          | mk res db3 =>
            rw [h6] at hrec
            cases res with
            | ok vs => exact hrec
            | error e => exact hrec
    · cases hp : getRequestById i db with
      | none => exact hq
      | some p =>
        dsimp only
        have hpmem := getRequestById_mem i db p hp
        by_cases hsk : skipCond p.status target = true
        · simp only [hsk, if_true]
          exact ih db q hnd hq hst
        · have hsk' : skipCond p.status target = false := by
            revert hsk
            cases skipCond p.status target <;> simp
          simp only [hsk', Bool.false_eq_true, if_false]
          have hqne : q.id ≠ i := fun he => hid he.symm
          have hq2 : q ∈ (updateStatusField i target db).requests :=
            mem_updateStatusField_of_ne i target db q hq hqne
          have hnd2 : idsNodup (updateStatusField i target db) :=
            idsNodup_updateStatusField i target db hnd
          have hrec := ih (updateStatusField i target db) q hnd2 hq2 hst
          cases h3 : getRequestById i (updateStatusField i target db) with
          | none => exact hq2
          | some upd =>
            dsimp only
            cases h4 : upd.user with
            | none => exact hq2
            | some u =>
              dsimp only
              cases h6 : updateStatusLoop target rest (updateStatusField i target db) with
              | mk res db3 =>
                rw [h6] at hrec
                cases res with
                | ok vs => exact hrec
                | error e => exact hrec

theorem usl_update_final (target : RequestStatus) (ids : List String) :
    ∀ (db : DB) (q : RequestEntity), idsNodup db → allUsersLoaded db →
      allIdsExist ids db → q ∈ db.requests → q.id ∈ ids →
      skipCond q.status target = false →
      ({ q with status := target } ∈ (updateStatusLoop target ids db).2.requests ∧
       idWithStatus q.id target (resViews (updateStatusLoop target ids db))) := by
  induction ids with
  | nil =>
    intro db q _ _ _ _ hmem _
    exact absurd hmem (List.not_mem_nil q.id)
  | cons i rest ih =>
    intro db q hnd husers hex hq hmem hskip
    unfold updateStatusLoop
    by_cases hid : i = q.id
    · have hlook : getRequestById i db = some q := by
        rw [hid]
        exact getRequestById_of_mem db hnd q hq
      rw [hlook]
      dsimp only
      simp only [hskip, Bool.false_eq_true, if_false]
      have hlook2 := usf_lookup_found i target db q hlook
      rw [hlook2]
      dsimp only
      rcases Option.isSome_iff_exists.mp (husers q hq) with ⟨u, hu⟩
      rw [hu]
      dsimp only
      have hq2 : ({ q with status := target }) ∈ (updateStatusField i target db).requests := by
        unfold updateStatusField
        have h2 : (if q.id == i then { q with status := target } else q) =
            ({ q with status := target }) := by
          rw [if_pos (beq_iff_eq.mpr hid.symm)]
        exact h2 ▸ List.mem_map_of_mem _ hq
      have hnd2 : idsNodup (updateStatusField i target db) :=
        idsNodup_updateStatusField i target db hnd
      have hfix := usl_fixed target rest (updateStatusField i target db)
        { q with status := target } hnd2 hq2 rfl
      rcases usl_ok target rest (updateStatusField i target db)
        (allIdsExist_updateStatusField rest i target db (allIdsExist_tail i rest db hex))
        (allUsersLoaded_updateStatusField i target db husers) with ⟨vs, db3, hrec⟩
      rw [hrec]
      rw [hrec] at hfix
      rw [hu] at hfix
      dsimp only
      refine ⟨hfix, ?_⟩
      refine ⟨{ id := i, name := u.name, requestDate := q.createdAt, status := target },
        List.mem_cons_self _ _, hid, rfl⟩
    · have hmem' : q.id ∈ rest := by
        rcases List.mem_cons.mp hmem with hh | hh
        · exact absurd hh.symm hid
        · exact hh
      rcases hex i (List.mem_cons_self i rest) with ⟨r, hr, hrid⟩
      rcases getRequestById_isSome i db r hr hrid with ⟨p, hp, hpmem, hpid⟩
      rw [hp]
      dsimp only
      by_cases hsk : skipCond p.status target = true
      · simp only [hsk, if_true]
        exact ih db q hnd husers (allIdsExist_tail i rest db hex) hq hmem' hskip
      · have hsk' : skipCond p.status target = false := by
          revert hsk
          cases skipCond p.status target <;> simp
        simp only [hsk', Bool.false_eq_true, if_false]
        have hqne : q.id ≠ i := fun he => hid he.symm
        have hq2 : q ∈ (updateStatusField i target db).requests :=
          mem_updateStatusField_of_ne i target db q hq hqne
        have hnd2 : idsNodup (updateStatusField i target db) :=
          idsNodup_updateStatusField i target db hnd
        have husers2 := allUsersLoaded_updateStatusField i target db husers
        have hex2 := allIdsExist_updateStatusField rest i target db
          (allIdsExist_tail i rest db hex)
        have hrec2 := ih (updateStatusField i target db) q hnd2 husers2 hex2 hq2 hmem' hskip
        have hlook2 := usf_lookup_found i target db p hp
        rw [hlook2]
        dsimp only
        rcases Option.isSome_iff_exists.mp (husers p hpmem) with ⟨u, hu⟩
        rw [hu]
        dsimp only
        rcases usl_ok target rest (updateStatusField i target db) hex2 husers2 with
          ⟨vs, db3, hrec⟩
        rw [hrec]
        rw [hrec] at hrec2
        dsimp only
        refine ⟨hrec2.1, ?_⟩
        rcases hrec2.2 with ⟨v, hv, hvid, hvst⟩
        exact ⟨v, List.mem_cons_of_mem _ hv, hvid, hvst⟩

theorem usl_missing_aborts (target : RequestStatus) (bad : String) (post : List String)
    (pre : List String) :
    ∀ db : DB, allIdsExist pre db → allUsersLoaded db →
      bad ∉ db.requests.map RequestEntity.id →
      updateStatusLoop target (pre ++ bad :: post) db =
        (Except.error ServiceError.nullAccess, (updateStatusLoop target pre db).2) := by
  induction pre with
  | nil =>
    intro db _ _ hbad
    rw [List.nil_append]
    unfold updateStatusLoop
    rw [getRequestById_none_of_not_mem bad db hbad]
  | cons i rest ih =>
    intro db hex husers hbad
    rcases hex i (List.mem_cons_self i rest) with ⟨r, hr, hrid⟩
    rcases getRequestById_isSome i db r hr hrid with ⟨p, hp, hpmem, hpid⟩
    rw [List.cons_append]
    unfold updateStatusLoop
    rw [hp]
    dsimp only
    by_cases hsk : skipCond p.status target = true
    · simp only [hsk, if_true]
      exact ih db (allIdsExist_tail i rest db hex) husers hbad
    · have hsk' : skipCond p.status target = false := by
        revert hsk
        cases skipCond p.status target <;> simp
      simp only [hsk', Bool.false_eq_true, if_false]
      rw [usf_lookup_found i target db p hp]
      dsimp only
      rcases Option.isSome_iff_exists.mp (husers p hpmem) with ⟨u, hu⟩
      rw [hu]
      dsimp only
      have hbad2 : bad ∉ (updateStatusField i target db).requests.map RequestEntity.id := by
        rw [updateStatusField_map_id]
        exact hbad
      rw [ih (updateStatusField i target db)
        (allIdsExist_updateStatusField rest i target db (allIdsExist_tail i rest db hex))
        (allUsersLoaded_updateStatusField i target db husers) hbad2]
      cases h6 : updateStatusLoop target rest (updateStatusField i target db) with
      | mk res db3 =>
        cases res with
        | ok vs => rfl
        | error e => rfl

/-- C10 (confirmed): for an admin caller, a request id in the batch that
resolves to no request makes `getRequestById` return null, the following
`.status` access throws, and the whole `updateStatus` call aborts with that
error instead of skipping the id: ids before the missing one are processed
(their updates persist in the returned store), the collected views are
discarded, and ids after the missing one are never processed. -/
theorem C10_missing_id_aborts_updateStatus (cid : String) (dto : UpdateStatusDto)
    (db : DB) (adm : UserProfile) (pre post : List String) (bad : String)
    (hids : dto.requestIds = pre ++ bad :: post)
    (hadm : usersFindById cid db = some adm) (hA : adm.is_admin = true)
    (hpre : allIdsExist pre db) (husers : allUsersLoaded db)
    (hbad : bad ∉ db.requests.map RequestEntity.id) :
    updateStatus cid dto db =
      (Except.error ServiceError.nullAccess, (updateStatusLoop dto.status pre db).2) := by
  have hpass : adminCheckFails (usersFindById cid db) = false := by
    rw [hadm]
    show (!adm.is_admin) = false
    rw [hA]
    rfl
  unfold updateStatus
  simp only [hpass, Bool.false_eq_true, if_false]
  rw [hids]
  exact usl_missing_aborts dto.status bad post pre db hpre husers hbad

/-- C10 witness: the theorem applied to the admin and the batch
`[r1, rX, r2]` where `rX` resolves to no request. -/
theorem C10_witness :
    usersFindById "a1" exDb = some exAdmin ∧ exAdmin.is_admin = true ∧
    allIdsExist ["r1"] exDb ∧ allUsersLoaded exDb ∧
    ("rX" ∉ exDb.requests.map RequestEntity.id) ∧
    updateStatus "a1" ⟨RequestStatus.processing, ["r1", "rX", "r2"]⟩ exDb =
      (Except.error ServiceError.nullAccess,
       (updateStatusLoop RequestStatus.processing ["r1"] exDb).2) :=
  ⟨rfl, rfl, by decide, by decide, by decide,
    C10_missing_id_aborts_updateStatus "a1" ⟨RequestStatus.processing, ["r1", "rX", "r2"]⟩
      exDb exAdmin ["r1"] ["r2"] "rX" rfl rfl rfl (by decide) (by decide) (by decide)⟩

/-- C4 (confirmed): for an admin caller whose batch ids all resolve,
`updateStatus` processes each id independently: a request already terminal
(COMPLETED or REJECTED) is never mutated and omitted from the returned list
(so repeated calls on terminal requests are idempotent), a request is
skipped the same way when the target status is terminal and its current
status is not PROCESSING, and every other listed request has its status set
to the target with its post-update view in the returned list. -/
theorem C4_updateStatus_per_id (cid : String) (dto : UpdateStatusDto) (db : DB)
    (adm : UserProfile) (r : RequestEntity)
    (hadm : usersFindById cid db = some adm) (hA : adm.is_admin = true)
    (hnd : idsNodup db) (husers : allUsersLoaded db)
    (hex : allIdsExist dto.requestIds db) (hr : r ∈ db.requests) :
    isOkE (updateStatus cid dto db).1 = true ∧
    (isTerminal r.status = true →
      r ∈ (updateStatus cid dto db).2.requests ∧
      idAbsent r.id (resViews (updateStatus cid dto db))) ∧
    (isTerminal dto.status = true → r.status ≠ RequestStatus.processing →
      r ∈ (updateStatus cid dto db).2.requests ∧
      idAbsent r.id (resViews (updateStatus cid dto db))) ∧
    (r.id ∈ dto.requestIds → isTerminal r.status = false →
      (isTerminal dto.status = true → r.status = RequestStatus.processing) →
      ({ r with status := dto.status } ∈ (updateStatus cid dto db).2.requests ∧
       idWithStatus r.id dto.status (resViews (updateStatus cid dto db)))) := by
  have hpass : adminCheckFails (usersFindById cid db) = false := by
    rw [hadm]
    show (!adm.is_admin) = false
    rw [hA]
    rfl
  have hus : updateStatus cid dto db = updateStatusLoop dto.status dto.requestIds db := by
    unfold updateStatus
    simp only [hpass, Bool.false_eq_true, if_false]
  refine ⟨?_, ?_, ?_, ?_⟩
  · rcases usl_ok dto.status dto.requestIds db hex husers with ⟨vs, db3, hrec⟩
    rw [hus, hrec]
    rfl
  · intro hterm
    rw [hus]
    exact usl_skip_stable dto.status dto.requestIds db r hnd hr
      (by unfold skipCond; rw [hterm]; rfl)
  · intro htt hpr
    rw [hus]
    refine usl_skip_stable dto.status dto.requestIds db r hnd hr ?_
    unfold skipCond
    rw [htt]
    have hb : (r.status == RequestStatus.processing) = false := by
      rw [beq_eq_false_iff_ne]
      exact hpr
    rw [hb]
    cases isTerminal r.status <;> rfl
  · intro hmem hterm himp
    rw [hus]
    refine usl_update_final dto.status dto.requestIds db r hnd husers hex hr hmem ?_
    unfold skipCond
    rw [hterm]
    cases htt : isTerminal dto.status with
    | false => rfl
    | true =>
      rw [himp htt]
      rfl

/-- C4 witness: the theorem applied to the admin, target PROCESSING, the
batch `[r1, r2]`, and the COMPLETED request `r2`, which stays untouched and
out of the result. -/
theorem C4_witness :
    usersFindById "a1" exDb = some exAdmin ∧ exAdmin.is_admin = true ∧
    idsNodup exDb ∧ allUsersLoaded exDb ∧ allIdsExist ["r1", "r2"] exDb ∧
    exReqCompleted ∈ exDb.requests ∧
    isOkE (updateStatus "a1" ⟨RequestStatus.processing, ["r1", "r2"]⟩ exDb).1 = true ∧
    (isTerminal exReqCompleted.status = true →
      exReqCompleted ∈
        (updateStatus "a1" ⟨RequestStatus.processing, ["r1", "r2"]⟩ exDb).2.requests ∧
      idAbsent exReqCompleted.id
        (resViews (updateStatus "a1" ⟨RequestStatus.processing, ["r1", "r2"]⟩ exDb))) := by
  have h := C4_updateStatus_per_id "a1" ⟨RequestStatus.processing, ["r1", "r2"]⟩ exDb
    exAdmin exReqCompleted rfl rfl (by decide) (by decide) (by decide) (by decide)
  exact ⟨rfl, rfl, by decide, by decide, by decide, by decide, h.1, h.2.1⟩

/-- A template decomposed into literal runs and placeholder tokens; a token
`tok n` stands for the text of two opening braces, `n`, two closing
braces. -/
inductive Chunk
  | lit : List Char → Chunk
  | tok : List Char → Chunk
deriving DecidableEq, Repr

/-- Text of one chunk. -/
def chunkStr : Chunk → List Char
  | .lit l => l
  | .tok n => tokPat n

/-- Text of a chunk sequence. -/
def flatten : List Chunk → List Char
  | [] => []
  | c :: cs => chunkStr c ++ flatten cs

/-- No brace characters. -/
def braceFree (l : List Char) : Prop :=
  ∀ c ∈ l, c ≠ '\x7b' ∧ c ≠ '\x7d'

/-- A plain identifier character, as used by the service's keys (`nome`,
`rua`, ..., `orgao_emissor`); on such keys the interpolated regex matches
the key text literally. -/
def plainChar (c : Char) : Prop :=
  c.isAlphanum = true ∨ c = '_'

/-- A plain nonempty key. -/
def plainKey (k : List Char) : Prop :=
  k ≠ [] ∧ ∀ c ∈ k, plainChar c

/-- Well-formed chunk: literal runs carry no braces, token names are plain. -/
def ChunkWF : Chunk → Prop
  | .lit l => braceFree l
  | .tok n => plainKey n

/-- Well-formed template. -/
def TemplateWF (cs : List Chunk) : Prop :=
  ∀ c ∈ cs, ChunkWF c

/-- Hygienic mapping: plain keys, and values without braces or dollars. -/
def DataWF (data : List (List Char × List Char)) : Prop :=
  ∀ kv ∈ data, plainKey kv.1 ∧ braceFree kv.2 ∧ '$' ∉ kv.2

/-- Substitution of a single key in one chunk. -/
def substOne (k v : List Char) : Chunk → Chunk
  | .lit l => .lit l
  | .tok m => if m = k then .lit v else .tok m

/-- Sequential substitution of a whole mapping in one chunk. -/
def substList (data : List (List Char × List Char)) (c : Chunk) : Chunk :=
  data.foldl (fun ch kv => substOne kv.1 kv.2 ch) c

/-- First-match substitution in one chunk: a supplied token becomes its
value, everything else stays. -/
def substTok (data : List (List Char × List Char)) : Chunk → Chunk
  | .lit l => .lit l
  | .tok m =>
    match data.find? (fun kv => kv.1 == m) with
    | some kv => .lit kv.2
    | none => .tok m

instance (c : Char) : Decidable (plainChar c) := by
  unfold plainChar
  infer_instance

instance (l : List Char) : Decidable (braceFree l) := by
  unfold braceFree
  infer_instance

instance (k : List Char) : Decidable (plainKey k) := by
  unfold plainKey
  infer_instance

instance (c : Chunk) : Decidable (ChunkWF c) := by
  cases c <;> unfold ChunkWF <;> infer_instance

instance (cs : List Chunk) : Decidable (TemplateWF cs) := by
  unfold TemplateWF
  infer_instance

instance (data : List (List Char × List Char)) : Decidable (DataWF data) := by
  unfold DataWF
  infer_instance

theorem plainKey_braceFree (k : List Char) (h : plainKey k) : braceFree k := by
  intro c hc
  rcases h.2 c hc with hp | hp
  · constructor
    · intro he
      rw [he] at hp
      cases hp
    · intro he
      rw [he] at hp
      cases hp
  · rw [hp]
    exact ⟨by decide, by decide⟩

theorem dollarSubst_id (m b a : List Char) :
    ∀ rep : List Char, '$' ∉ rep → dollarSubst m b a rep = rep := by
  intro rep
  induction rep with
  | nil =>
    intro _
    rfl
  | cons c rest ih =>
    intro h
    have hc : c ≠ '$' := fun he => h (he ▸ List.mem_cons_self c rest)
    have hrest : '$' ∉ rest := fun hm => h (List.mem_cons_of_mem c hm)
    cases rest with
    | nil => simp [dollarSubst, hc]
    | cons d r2 => simp [dollarSubst, hc, ih hrest]

theorem isPrefixOf_append_self (pat r : List Char) : pat.isPrefixOf (pat ++ r) = true := by
  induction pat with
  | nil => simp [List.isPrefixOf]
  | cons a as ih => simp [List.isPrefixOf, ih]

theorem isPrefixOf_iff_append (p : List Char) :
    ∀ l : List Char, p.isPrefixOf l = true ↔ ∃ t, l = p ++ t := by
  induction p with
  | nil =>
    intro l
    simp [List.isPrefixOf]
  | cons a p' ih =>
    intro l
    cases l with
    | nil =>
      simp [List.isPrefixOf]
    | cons b l' =>
      simp only [List.isPrefixOf, Bool.and_eq_true, beq_iff_eq, ih l', List.cons_append,
        List.cons.injEq]
      constructor
      · rintro ⟨h1, t, h2⟩
        exact ⟨t, h1.symm, h2⟩
      · rintro ⟨t, h1, h2⟩
        exact ⟨h1.symm, t, h2⟩

theorem goRA_skip (pat rep : List Char) :
    ∀ (l consumed R : List Char),
      goRA pat rep l.length consumed (l ++ R) = goRA pat rep 0 (consumed ++ l) R := by
  intro l
  induction l with
  | nil =>
    intro consumed R
    simp
  | cons c l' ih =>
    intro consumed R
    rw [List.cons_append]
    show goRA pat rep (l'.length + 1) consumed (c :: (l' ++ R)) =
      goRA pat rep 0 (consumed ++ c :: l') R
    rw [show goRA pat rep (l'.length + 1) consumed (c :: (l' ++ R)) =
      goRA pat rep l'.length (consumed ++ [c]) (l' ++ R) from rfl]
    rw [ih (consumed ++ [c]) R, List.append_assoc]
    rfl

theorem goRA_no_match_run (pts rep : List Char) :
    ∀ l : List Char, (∀ c ∈ l, c ≠ '\x7b') →
      ∀ consumed R, goRA ('\x7b' :: pts) rep 0 consumed (l ++ R) =
        l ++ goRA ('\x7b' :: pts) rep 0 (consumed ++ l) R := by
  intro l
  induction l with
  | nil =>
    intro _ consumed R
    simp
  | cons c l' ih =>
    intro hl consumed R
    have hc : c ≠ '\x7b' := hl c (List.mem_cons_self c l')
    rw [List.cons_append]
    have hpre : (('\x7b' :: pts).isPrefixOf (c :: (l' ++ R))) = false := by
      simp only [List.isPrefixOf]
      rw [show ('\x7b' == c) = false from beq_eq_false_iff_ne.mpr (Ne.symm hc)]
      rfl
    simp only [goRA, hpre, Bool.false_and, Bool.false_eq_true, if_false]
    rw [ih (fun d hd => hl d (List.mem_cons_of_mem c hd)) (consumed ++ [c]) R,
      List.append_assoc]
    rfl


theorem goRA_match (c0 : Char) (pt rep : List Char) (consumed R : List Char) :
    goRA (c0 :: pt) rep 0 consumed ((c0 :: pt) ++ R) =
      dollarSubst (c0 :: pt) consumed R rep ++
        goRA (c0 :: pt) rep 0 (consumed ++ (c0 :: pt)) R := by
  have hpre : ((c0 :: pt).isPrefixOf (c0 :: (pt ++ R))) = true := by
    rw [← List.cons_append]
    exact isPrefixOf_append_self (c0 :: pt) R
  rw [List.cons_append]
  simp only [goRA, hpre, List.isEmpty_cons, Bool.not_false, Bool.and_self, if_true]
  have hdrop : (c0 :: (pt ++ R)).drop (c0 :: pt).length = R := by
    rw [← List.cons_append, List.drop_left]
  rw [hdrop]
  have hlen : (c0 :: pt).length - 1 = pt.length := by simp
  rw [hlen, goRA_skip (c0 :: pt) rep pt (consumed ++ [c0]) R, List.append_assoc]
  rfl

theorem tokTail_eq :
    ∀ (k m A B : List Char), braceFree k → braceFree m →
      k ++ '\x7d' :: '\x7d' :: A = m ++ '\x7d' :: '\x7d' :: B → k = m := by
  intro k
  induction k with
  | nil =>
    intro m A B _ hm heq
    cases m with
    | nil => rfl
    | cons c m' =>
      rw [List.nil_append, List.cons_append] at heq
      injection heq with h1 _
      exact absurd h1.symm (hm c (List.mem_cons_self c m')).2
  | cons a k' ih =>
    intro m A B hk hm heq
    cases m with
    | nil =>
      rw [List.nil_append, List.cons_append] at heq
      injection heq with h1 _
      exact absurd h1 (hk a (List.mem_cons_self a k')).2
    | cons c m' =>
      rw [List.cons_append, List.cons_append] at heq
      injection heq with h1 h2
      rw [h1, ih m' A B (fun d hd => hk d (List.mem_cons_of_mem a hd))
        (fun d hd => hm d (List.mem_cons_of_mem c hd)) h2]

theorem tok_prefix_names (k m R : List Char) (hk : braceFree k) (hm : braceFree m)
    (h : (tokPat k).isPrefixOf (tokPat m ++ R) = true) : k = m := by
  unfold tokPat at h
  rw [List.cons_append, List.cons_append] at h
  simp only [List.isPrefixOf, beq_self_eq_true, Bool.true_and] at h
  rcases (isPrefixOf_iff_append _ _).mp h with ⟨t, ht⟩
  rw [List.append_assoc] at ht
  apply tokTail_eq k m t R hk hm
  rw [List.append_assoc] at ht
  exact ht.symm

theorem goRA_step_miss (pat rep : List Char) (c : Char) (rest consumed : List Char)
    (h : pat.isPrefixOf (c :: rest) = false) :
    goRA pat rep 0 consumed (c :: rest) = c :: goRA pat rep 0 (consumed ++ [c]) rest := by
  simp only [goRA, h, Bool.false_and, Bool.false_eq_true, if_false]

theorem goRA_tok_other (k m v : List Char) (hk : braceFree k) (hm : braceFree m)
    (hmne : m ≠ []) (hne : m ≠ k) (consumed R : List Char) :
    goRA (tokPat k) v 0 consumed (tokPat m ++ R) =
      tokPat m ++ goRA (tokPat k) v 0 (consumed ++ tokPat m) R := by
  have hpre0 : (tokPat k).isPrefixOf (tokPat m ++ R) = false := by
    cases hh : (tokPat k).isPrefixOf (tokPat m ++ R) with
    | false => rfl
    | true => exact absurd (tok_prefix_names k m R hk hm hh) (Ne.symm hne)
  have e1 : tokPat m ++ R = '\x7b' :: ('\x7b' :: ((m ++ ['\x7d', '\x7d']) ++ R)) := by
    simp [tokPat]
  rw [e1]
  rw [goRA_step_miss _ _ _ _ _ (by rw [← e1]; exact hpre0)]
  cases m with
  | nil => exact absurd rfl hmne
  | cons m0 m' =>
    have hm0 : m0 ≠ '\x7b' := (hm m0 (List.mem_cons_self m0 m')).1
    have hpre1 : (tokPat k).isPrefixOf
        ('\x7b' :: (((m0 :: m') ++ ['\x7d', '\x7d']) ++ R)) = false := by
      show (('\x7b' :: ('\x7b' :: (k ++ ['\x7d', '\x7d']))).isPrefixOf
        ('\x7b' :: (((m0 :: m') ++ ['\x7d', '\x7d']) ++ R))) = false
      simp only [List.isPrefixOf, List.cons_append]
      rw [show ('\x7b' == '\x7b') = true from rfl]
      rw [show ('\x7b' == m0) = false from beq_eq_false_iff_ne.mpr (Ne.symm hm0)]
      rfl
    rw [goRA_step_miss _ _ _ _ _ hpre1]
    have hnolb : ∀ c ∈ (m0 :: m') ++ ['\x7d', '\x7d'], c ≠ '\x7b' := by
      intro c hc
      rcases List.mem_append.mp hc with hc | hc
      · exact (hm c hc).1
      · rcases List.mem_cons.mp hc with hc | hc
        · rw [hc]
          decide
        · rcases List.mem_cons.mp hc with hc | hc
          · rw [hc]
            decide
          · exact absurd hc (List.not_mem_nil c)
    have hrun : goRA (tokPat k) v 0 ((consumed ++ ['\x7b']) ++ ['\x7b'])
        (((m0 :: m') ++ ['\x7d', '\x7d']) ++ R) =
        ((m0 :: m') ++ ['\x7d', '\x7d']) ++ goRA (tokPat k) v 0
          (((consumed ++ ['\x7b']) ++ ['\x7b']) ++ ((m0 :: m') ++ ['\x7d', '\x7d'])) R :=
      goRA_no_match_run ('\x7b' :: (k ++ ['\x7d', '\x7d'])) v ((m0 :: m') ++ ['\x7d', '\x7d'])
        hnolb ((consumed ++ ['\x7b']) ++ ['\x7b']) R
    rw [hrun]
    simp [tokPat, List.append_assoc]

theorem jsReplaceAll_chunks (k v : List Char) (hk : plainKey k) (hbv : braceFree v)
    (hdv : '$' ∉ v) :
    ∀ cs : List Chunk, TemplateWF cs → ∀ consumed : List Char,
      goRA (tokPat k) v 0 consumed (flatten cs) = flatten (cs.map (substOne k v)) := by
  have hbk : braceFree k := plainKey_braceFree k hk
  intro cs
  induction cs with
  | nil =>
    intro _ consumed
    rfl
  | cons c cs' ih =>
    intro hwf consumed
    have hwfc : ChunkWF c := hwf c (List.mem_cons_self c cs')
    have hwf' : TemplateWF cs' := fun d hd => hwf d (List.mem_cons_of_mem c hd)
    cases c with
    | lit l =>
      have hnolb : ∀ ch ∈ l, ch ≠ '\x7b' := fun ch hch => (hwfc ch hch).1
      have hr : goRA (tokPat k) v 0 consumed (l ++ flatten cs') =
          l ++ goRA (tokPat k) v 0 (consumed ++ l) (flatten cs') :=
        goRA_no_match_run ('\x7b' :: (k ++ ['\x7d', '\x7d'])) v l hnolb consumed (flatten cs')
      show goRA (tokPat k) v 0 consumed (l ++ flatten cs') =
        l ++ flatten (cs'.map (substOne k v))
      rw [hr, ih hwf' (consumed ++ l)]
    | tok m =>
      have hbm : braceFree m := plainKey_braceFree m hwfc
      by_cases hmk : m = k
      · have hmatch : goRA (tokPat k) v 0 consumed (tokPat k ++ flatten cs') =
            dollarSubst (tokPat k) consumed (flatten cs') v ++
            goRA (tokPat k) v 0 (consumed ++ tokPat k) (flatten cs') :=
          goRA_match '\x7b' ('\x7b' :: (k ++ ['\x7d', '\x7d'])) v consumed (flatten cs')
        show goRA (tokPat k) v 0 consumed (tokPat m ++ flatten cs') =
          flatten ((substOne k v (Chunk.tok m)) :: cs'.map (substOne k v))
        rw [hmk, hmatch, dollarSubst_id (tokPat k) consumed (flatten cs') v hdv,
          ih hwf' (consumed ++ tokPat k)]
        simp [substOne, flatten, chunkStr]
      · have hother := goRA_tok_other k m v hbk hbm hwfc.1 hmk consumed (flatten cs')
        show goRA (tokPat k) v 0 consumed (tokPat m ++ flatten cs') =
          flatten ((substOne k v (Chunk.tok m)) :: cs'.map (substOne k v))
        rw [hother, ih hwf' (consumed ++ tokPat m)]
        simp [substOne, hmk, flatten, chunkStr]

theorem jsReplaceAll_flatten (k v : List Char) (cs : List Chunk) (hk : plainKey k)
    (hbv : braceFree v) (hdv : '$' ∉ v) (hwf : TemplateWF cs) :
    jsReplaceAll (flatten cs) (tokPat k) v = flatten (cs.map (substOne k v)) :=
  jsReplaceAll_chunks k v hk hbv hdv cs hwf []

theorem TemplateWF_substOne (k v : List Char) (cs : List Chunk) (hwf : TemplateWF cs)
    (hbv : braceFree v) : TemplateWF (cs.map (substOne k v)) := by
  intro c hc
  rcases List.mem_map.mp hc with ⟨c0, hc0, rfl⟩
  cases c0 with
  | lit l => exact hwf (Chunk.lit l) hc0
  | tok m =>
    by_cases hm : m = k
    · simp only [substOne, hm, if_true]
      exact hbv
    · simp only [substOne, hm, if_false]
      exact hwf (Chunk.tok m) hc0

theorem replacePlaceholdersL_chunks :
    ∀ (data : List (List Char × List Char)) (cs : List Chunk), TemplateWF cs →
      DataWF data →
      replacePlaceholdersL (flatten cs) data = flatten (cs.map (substList data)) := by
  intro data
  induction data with
  | nil =>
    intro cs _ _
    show flatten cs = flatten (cs.map (substList []))
    have h1 : cs.map (substList []) = cs := by
      have h2 : cs.map (substList []) = cs.map id := by
        apply List.map_congr_left
        intro c _
        rfl
      rw [h2, List.map_id]
    rw [h1]
  | cons kv rest ih =>
    intro cs hwf hd
    have hkv := hd kv (List.mem_cons_self kv rest)
    have hrest : DataWF rest := fun p hp => hd p (List.mem_cons_of_mem kv hp)
    rw [show replacePlaceholdersL (flatten cs) (kv :: rest) =
        replacePlaceholdersL (jsReplaceAll (flatten cs) (tokPat kv.1) kv.2) rest from rfl]
    rw [jsReplaceAll_flatten kv.1 kv.2 cs hkv.1 hkv.2.1 hkv.2.2 hwf]
    rw [ih (cs.map (substOne kv.1 kv.2)) (TemplateWF_substOne kv.1 kv.2 cs hwf hkv.2.1)
      hrest]
    rw [List.map_map]
    rfl

theorem substList_lit (data : List (List Char × List Char)) (l : List Char) :
    substList data (Chunk.lit l) = Chunk.lit l := by
  induction data with
  | nil => rfl
  | cons kv rest ih =>
    show substList rest (substOne kv.1 kv.2 (Chunk.lit l)) = Chunk.lit l
    exact ih

theorem substList_eq_substTok (data : List (List Char × List Char)) :
    ∀ c : Chunk, substList data c = substTok data c := by
  induction data with
  | nil =>
    intro c
    cases c with
    | lit l => rfl
    | tok m => rfl
  | cons kv rest ih =>
    intro c
    cases c with
    | lit l =>
      rw [substList_lit]
      rfl
    | tok m =>
      show substList rest (substOne kv.1 kv.2 (Chunk.tok m)) = substTok (kv :: rest) (Chunk.tok m)
      by_cases hm : m = kv.1
      · have hfind : (kv :: rest).find? (fun p => p.1 == m) = some kv := by
          rw [List.find?_cons]
          rw [show (kv.1 == m) = true from beq_iff_eq.mpr hm.symm]
        have h1 : substOne kv.1 kv.2 (Chunk.tok m) = Chunk.lit kv.2 := by
          simp [substOne, hm]
        rw [h1, substList_lit]
        show Chunk.lit kv.2 = substTok (kv :: rest) (Chunk.tok m)
        simp only [substTok, hfind]
      · have hfind : (kv :: rest).find? (fun p => p.1 == m) = rest.find? (fun p => p.1 == m) := by
          rw [List.find?_cons]
          rw [show (kv.1 == m) = false from beq_eq_false_iff_ne.mpr (fun he => hm he.symm)]
        simp only [substOne, hm, if_false]
        rw [ih (Chunk.tok m)]
        simp only [substTok, hfind]

theorem flatten_cons (c : Chunk) (cs : List Chunk) :
    flatten (c :: cs) = chunkStr c ++ flatten cs := rfl

theorem occ_of_tok (n : List Char) :
    ∀ cs : List Chunk, Chunk.tok n ∈ cs → ∃ u w, flatten cs = u ++ tokPat n ++ w := by
  intro cs
  induction cs with
  | nil =>
    intro h
    exact absurd h (List.not_mem_nil _)
  | cons c cs' ih =>
    intro h
    rcases List.mem_cons.mp h with h | h
    · refine ⟨[], flatten cs', ?_⟩
      rw [← h, flatten_cons]
      rfl
    · rcases ih h with ⟨u, w, hw⟩
      refine ⟨chunkStr c ++ u, w, ?_⟩
      rw [flatten_cons, hw]
      simp [List.append_assoc]

theorem split_no_lb :
    ∀ l : List Char, (∀ c ∈ l, c ≠ '\x7b') →
      ∀ (u A B : List Char), l ++ A = u ++ '\x7b' :: B →
        ∃ u2, u = l ++ u2 ∧ A = u2 ++ '\x7b' :: B := by
  intro l
  induction l with
  | nil =>
    intro _ u A B h
    exact ⟨u, rfl, h⟩
  | cons c l' ih =>
    intro hl u A B h
    cases u with
    | nil =>
      rw [List.nil_append, List.cons_append] at h
      injection h with h1 _
      exact absurd h1 (hl c (List.mem_cons_self c l'))
    | cons d u' =>
      rw [List.cons_append, List.cons_append] at h
      injection h with h1 h2
      rcases ih (fun e he => hl e (List.mem_cons_of_mem c he)) u' A B h2 with ⟨u2, hu, hA⟩
      refine ⟨u2, ?_, hA⟩
      rw [List.cons_append, ← h1, hu]

theorem tokPat_ne_nil (n : List Char) : tokPat n ≠ [] := by
  intro h
  cases h

theorem tokApp (n u w : List Char) :
    u ++ tokPat n ++ w = u ++ '\x7b' :: '\x7b' :: (n ++ '\x7d' :: '\x7d' :: w) := by
  simp [tokPat, List.append_assoc]

theorem tok_of_occ (n : List Char) (hbn : braceFree n) :
    ∀ cs : List Chunk, TemplateWF cs →
      ∀ u w : List Char, flatten cs = u ++ tokPat n ++ w → Chunk.tok n ∈ cs := by
  intro cs
  induction cs with
  | nil =>
    intro _ u w h
    have h2 : u ++ tokPat n ++ w = [] := h.symm
    rw [List.append_eq_nil] at h2
    rw [List.append_eq_nil] at h2
    exact absurd h2.1.2 (tokPat_ne_nil n)
  | cons c cs' ih =>
    intro hwf u w h
    have hwfc : ChunkWF c := hwf c (List.mem_cons_self c cs')
    have hwf' : TemplateWF cs' := fun d hd => hwf d (List.mem_cons_of_mem c hd)
    have h' : chunkStr c ++ flatten cs' =
        u ++ '\x7b' :: '\x7b' :: (n ++ '\x7d' :: '\x7d' :: w) := by
      rw [← tokApp n u w]
      exact h
    cases c with
    | lit l =>
      have hnolb : ∀ ch ∈ l, ch ≠ '\x7b' := fun ch hch => (hwfc ch hch).1
      rcases split_no_lb l hnolb u (flatten cs')
        ('\x7b' :: (n ++ '\x7d' :: '\x7d' :: w)) h' with ⟨u2, hu, hA⟩
      have hA2 : flatten cs' = u2 ++ tokPat n ++ w := by
        rw [tokApp n u2 w]
        exact hA
      exact List.mem_cons_of_mem _ (ih hwf' u2 w hA2)
    | tok m =>
      have hbm : braceFree m := plainKey_braceFree m hwfc
      have h2 : '\x7b' :: '\x7b' :: (m ++ '\x7d' :: '\x7d' :: flatten cs') =
          u ++ '\x7b' :: '\x7b' :: (n ++ '\x7d' :: '\x7d' :: w) := by
        rw [← h']
        show _ = tokPat m ++ flatten cs'
        simp [tokPat, List.append_assoc]
      cases u with
      | nil =>
        rw [List.nil_append] at h2
        injection h2 with _ h3
        injection h3 with _ h4
        have hmn : m = n := tokTail_eq m n (flatten cs') w hbm hbn h4
        rw [← hmn]
        exact List.mem_cons_self _ _
      | cons d u' =>
        rw [List.cons_append] at h2
        injection h2 with _ h3
        cases u' with
        | nil =>
          rw [List.nil_append] at h3
          injection h3 with _ h4
          cases hm : m with
          | nil =>
            rw [hm, List.nil_append] at h4
            injection h4 with h5 _
            cases h5
          | cons c0 m' =>
            rw [hm, List.cons_append] at h4
            injection h4 with h5 _
            exact absurd h5 ((hbm c0 (by rw [hm]; exact List.mem_cons_self c0 m')).1)
        | cons d2 u'' =>
          rw [List.cons_append] at h3
          injection h3 with _ h4
          have hnolbm : ∀ ch ∈ m, ch ≠ '\x7b' := fun ch hch => (hbm ch hch).1
          rcases split_no_lb m hnolbm u'' ('\x7d' :: '\x7d' :: flatten cs')
            ('\x7b' :: (n ++ '\x7d' :: '\x7d' :: w)) h4 with ⟨u2, hu2, hA⟩
          cases u2 with
          | nil =>
            rw [List.nil_append] at hA
            injection hA with h5 _
            cases h5
          | cons e u3 =>
            rw [List.cons_append] at hA
            injection hA with _ h5
            cases u3 with
            | nil =>
              rw [List.nil_append] at h5
              injection h5 with h6 _
              cases h6
            | cons e2 u4 =>
              rw [List.cons_append] at h5
              injection h5 with _ h6
              have hA2 : flatten cs' = u4 ++ tokPat n ++ w := by
                rw [tokApp n u4 w]
                exact h6
              exact List.mem_cons_of_mem _ (ih hwf' u4 w hA2)

theorem hasOcc_iff (pat : List Char) :
    ∀ s : List Char, hasOcc pat s = true ↔ ∃ u w, s = u ++ pat ++ w := by
  intro s
  induction s with
  | nil =>
    show pat.isPrefixOf [] = true ↔ _
    cases pat with
    | nil =>
      simp [List.isPrefixOf]
    | cons a as =>
      constructor
      · intro h
        cases h
      · rintro ⟨u, w, hw⟩
        have h2 : u ++ (a :: as) ++ w = [] := hw.symm
        rw [List.append_eq_nil] at h2
        rw [List.append_eq_nil] at h2
        cases h2.1.2
  | cons c rest ih =>
    show (pat.isPrefixOf (c :: rest) || hasOcc pat rest) = true ↔ _
    rw [Bool.or_eq_true]
    constructor
    · rintro (h | h)
      · rcases (isPrefixOf_iff_append pat (c :: rest)).mp h with ⟨t, ht⟩
        exact ⟨[], t, by rw [List.nil_append]; exact ht⟩
      · rcases ih.mp h with ⟨u, w, hw⟩
        exact ⟨c :: u, w, by rw [List.cons_append, List.cons_append, ← hw]⟩
    · rintro ⟨u, w, hw⟩
      cases u with
      | nil =>
        left
        rw [List.nil_append] at hw
        exact (isPrefixOf_iff_append pat (c :: rest)).mpr ⟨w, hw⟩
      | cons d u' =>
        right
        rw [List.cons_append, List.cons_append] at hw
        injection hw with _ h2
        exact ih.mpr ⟨u', w, h2⟩

theorem substTok_tok (data : List (List Char × List Char)) (m : List Char) :
    substTok data (Chunk.tok m) =
      match data.find? (fun kv => kv.1 == m) with
      | some kv => Chunk.lit kv.2
      | none => Chunk.tok m := rfl

theorem TemplateWF_substTok (data : List (List Char × List Char)) (cs : List Chunk)
    (hT : TemplateWF cs) (hD : DataWF data) : TemplateWF (cs.map (substTok data)) := by
  intro c hc
  rcases List.mem_map.mp hc with ⟨c0, hc0, rfl⟩
  cases c0 with
  | lit l => exact hT (Chunk.lit l) hc0
  | tok m =>
    show ChunkWF (substTok data (Chunk.tok m))
    rw [substTok_tok]
    cases hf : data.find? (fun kv => kv.1 == m) with
    | none => exact hT (Chunk.tok m) hc0
    | some kv => exact (hD kv (List.mem_of_find?_eq_some hf)).2.1

theorem substTok_preimage (data : List (List Char × List Char)) (n : List Char)
    (cs : List Chunk) (h : Chunk.tok n ∈ cs.map (substTok data)) :
    Chunk.tok n ∈ cs ∧ data.find? (fun kv => kv.1 == n) = none := by
  rcases List.mem_map.mp h with ⟨c0, hc0, heq⟩
  cases c0 with
  | lit l =>
    have heq2 : Chunk.lit l = Chunk.tok n := heq
    cases heq2
  | tok m =>
    rw [substTok_tok] at heq
    cases hf : data.find? (fun kv => kv.1 == m) with
    | some kv =>
      rw [hf] at heq
      have heq2 : Chunk.lit kv.2 = Chunk.tok n := heq
      cases heq2
    | none =>
      rw [hf] at heq
      have heq2 : Chunk.tok m = Chunk.tok n := heq
      injection heq2 with hmn
      rw [← hmn]
      exact ⟨hc0, hf⟩

/-- C8 (amended): over well-formed templates (literal runs without braces and
tokens with plain nonempty names) and hygienic mappings (plain keys, values
without braces or dollar characters), the renderer replaces every supplied
token by its value and leaves everything else intact: the output is exactly
the template with each supplied token replaced, no supplied token occurs in
the output, and an unsupplied token occurs in the output exactly when it
occurs in the template.  (Unrestricted, the claim is false: the reduce runs
one global replace per key in order, so a later value can reintroduce an
earlier key's token - see the counterexample.) -/
theorem C8_renderer_round_trip (cs : List Chunk) (data : List (List Char × List Char))
    (hT : TemplateWF cs) (hD : DataWF data) :
    replacePlaceholdersL (flatten cs) data = flatten (cs.map (substTok data)) ∧
    (∀ kv ∈ data, hasOcc (tokPat kv.1) (replacePlaceholdersL (flatten cs) data) = false) ∧
    (∀ n : List Char, plainKey n → data.find? (fun kv => kv.1 == n) = none →
      hasOcc (tokPat n) (replacePlaceholdersL (flatten cs) data) =
        hasOcc (tokPat n) (flatten cs)) := by
  have hmain : replacePlaceholdersL (flatten cs) data = flatten (cs.map (substTok data)) := by
    rw [replacePlaceholdersL_chunks data cs hT hD]
    congr 1
    apply List.map_congr_left
    intro c _
    exact substList_eq_substTok data c
  have hWFm : TemplateWF (cs.map (substTok data)) := TemplateWF_substTok data cs hT hD
  refine ⟨hmain, ?_, ?_⟩
  · intro kv hkv
    cases hocc : hasOcc (tokPat kv.1) (replacePlaceholdersL (flatten cs) data) with
    | false => rfl
    | true =>
      exfalso
      rw [hmain] at hocc
      rcases (hasOcc_iff _ _).mp hocc with ⟨u, w, hw⟩
      have hbk := plainKey_braceFree kv.1 (hD kv hkv).1
      have hmem := tok_of_occ kv.1 hbk (cs.map (substTok data)) hWFm u w hw
      rcases substTok_preimage data kv.1 cs hmem with ⟨_, hfind⟩
      have hne := List.find?_eq_none.mp hfind kv hkv
      exact hne (beq_self_eq_true kv.1)
  · intro n hpn hfindn
    have hbn := plainKey_braceFree n hpn
    cases h1 : hasOcc (tokPat n) (replacePlaceholdersL (flatten cs) data) with
    | true =>
      rw [hmain] at h1
      rcases (hasOcc_iff _ _).mp h1 with ⟨u, w, hw⟩
      have hmem := tok_of_occ n hbn _ hWFm u w hw
      rcases substTok_preimage data n cs hmem with ⟨hmem0, _⟩
      rcases occ_of_tok n cs hmem0 with ⟨u2, w2, hw2⟩
      have h3 : hasOcc (tokPat n) (flatten cs) = true :=
        (hasOcc_iff _ _).mpr ⟨u2, w2, hw2⟩
      rw [h3]
    | false =>
      cases h2 : hasOcc (tokPat n) (flatten cs) with
      | false => rfl
      | true =>
        exfalso
        rcases (hasOcc_iff _ _).mp h2 with ⟨u, w, hw⟩
        have hmem := tok_of_occ n hbn cs hT u w hw
        have hsub : substTok data (Chunk.tok n) = Chunk.tok n := by
          rw [substTok_tok, hfindn]
        have hmemm : Chunk.tok n ∈ cs.map (substTok data) :=
          hsub ▸ List.mem_map_of_mem (substTok data) hmem
        rcases occ_of_tok n _ hmemm with ⟨u2, w2, hw2⟩
        have h3 : hasOcc (tokPat n) (flatten (cs.map (substTok data))) = true :=
          (hasOcc_iff _ _).mpr ⟨u2, w2, hw2⟩
        rw [hmain] at h1
        rw [h1] at h3
        cases h3

/-- C8 counterexample: with the mapping `a` to `1`, `b` to the text of the
`a` token (in that order) and the template consisting solely of the `b`
token, the renderer's output is exactly the `a` token: a supplied
`\x7b\x7b`-prefixed token occurs in the output, refuting the unrestricted
claim. -/
theorem C8_counterexample :
    replacePlaceholders "\x7b\x7bb\x7d\x7d" [("a", "1"), ("b", "\x7b\x7ba\x7d\x7d")] =
      "\x7b\x7ba\x7d\x7d" ∧
    hasOcc (tokPat ['a']) (replacePlaceholders "\x7b\x7bb\x7d\x7d"
      [("a", "1"), ("b", "\x7b\x7ba\x7d\x7d")]).toList = true := by
  decide

/-- C8 witness: the amended theorem applied to the template `ola `, `nome`
token, `x` token with the single mapping `nome` to `Ana`: the supplied token
is replaced everywhere, no supplied token survives, and the unsupplied `x`
token is left verbatim. -/
theorem C8_witness :
    TemplateWF [Chunk.lit ['o', 'l', 'a', ' '], Chunk.tok ['n', 'o', 'm', 'e'],
      Chunk.tok ['x']] ∧
    DataWF [(['n', 'o', 'm', 'e'], ['A', 'n', 'a'])] ∧
    replacePlaceholdersL
        (flatten [Chunk.lit ['o', 'l', 'a', ' '], Chunk.tok ['n', 'o', 'm', 'e'],
          Chunk.tok ['x']]) [(['n', 'o', 'm', 'e'], ['A', 'n', 'a'])] =
      flatten ([Chunk.lit ['o', 'l', 'a', ' '], Chunk.tok ['n', 'o', 'm', 'e'],
        Chunk.tok ['x']].map (substTok [(['n', 'o', 'm', 'e'], ['A', 'n', 'a'])])) ∧
    hasOcc (tokPat ['n', 'o', 'm', 'e'])
      (replacePlaceholdersL
        (flatten [Chunk.lit ['o', 'l', 'a', ' '], Chunk.tok ['n', 'o', 'm', 'e'],
          Chunk.tok ['x']]) [(['n', 'o', 'm', 'e'], ['A', 'n', 'a'])]) = false ∧
    hasOcc (tokPat ['x'])
        (replacePlaceholdersL
          (flatten [Chunk.lit ['o', 'l', 'a', ' '], Chunk.tok ['n', 'o', 'm', 'e'],
            Chunk.tok ['x']]) [(['n', 'o', 'm', 'e'], ['A', 'n', 'a'])]) =
      hasOcc (tokPat ['x'])
        (flatten [Chunk.lit ['o', 'l', 'a', ' '], Chunk.tok ['n', 'o', 'm', 'e'],
          Chunk.tok ['x']]) := by
  have h := C8_renderer_round_trip
    [Chunk.lit ['o', 'l', 'a', ' '], Chunk.tok ['n', 'o', 'm', 'e'], Chunk.tok ['x']]
    [(['n', 'o', 'm', 'e'], ['A', 'n', 'a'])] (by decide) (by decide)
  exact ⟨by decide, by decide, h.1,
    h.2.1 (['n', 'o', 'm', 'e'], ['A', 'n', 'a']) (List.mem_cons_self _ _),
    h.2.2 ['x'] (by decide) (by decide)⟩
